import Mathlib

/-!
Verification of the sudojo_lib Sudoku core: a shallow embedding of the
board codec, the permutation scrambler (`utils/sudokuScrambler.ts`), the
2D board parser (`utils/board.ts`) and the game-state reducer
(`hooks/useSudoku.ts`), together with proofs about the claims of the
specification.

Conventions of the embedding:
* TS `number | null` becomes `Option Nat`; `number[] | null` becomes
  `Option (List Nat)`.
* Code that can throw is modelled with `Option` results: `none` models a
  thrown exception (`Error` / `TypeError`).
* `Date.now()`-derived seeds are passed as explicit parameters: the TS
  `Scrambler.scramble9` seeds a fresh LCG from the wall clock at each
  call, so each call site receives its seed from an environment value.
-/

set_option maxHeartbeats 1000000
set_option maxRecDepth 10000

-- =========================================================================
-- types/sudoku.ts
-- =========================================================================

/-- `SudokuCell` from `types/sudoku.ts`. -/
structure SudokuCell where
  index : Nat
  solution : Option Nat
  given : Option Nat
  input : Option Nat
  pencilmarks : Option (List Nat)
  deriving Repr, DecidableEq, Inhabited

/-- `rowOf` from `types/sudoku.ts`: `Math.floor(index / 9)`. -/
def rowOf (index : Nat) : Nat := index / 9

/-- `columnOf` from `types/sudoku.ts`: `index % 9`. -/
def columnOf (index : Nat) : Nat := index % 9

/-- `blockOf` from `types/sudoku.ts`. -/
def blockOf (index : Nat) : Nat :=
  (rowOf index / 3) * 3 + (columnOf index / 3)

/-- `SudokuBoard` from `types/sudoku.ts`. -/
structure SudokuBoard where
  cells : List SudokuCell
  completed : Bool
  entering : Bool
  enteringError : Option String
  deriving Repr, DecidableEq, Inhabited

/-- `SudokuPlaySettings` from `types/sudoku.ts`. -/
structure SudokuPlaySettings where
  pencilmarking : Bool
  autoPencilmarks : Bool
  deriving Repr, DecidableEq, Inhabited

/-- `SudokuDisplay` from `types/sudoku.ts`. -/
inductive SudokuDisplay where
  | NUMERIC | KANJI | COLORS | EMOJIS
  deriving Repr, DecidableEq, Inhabited

/-- `SudokuAppSettings` from `types/sudoku.ts`. -/
structure SudokuAppSettings where
  showErrors : Bool
  enableAnimations : Bool
  symmetrical : Bool
  display : SudokuDisplay
  deriving Repr, DecidableEq, Inhabited

/-- `SudokuPlay` from `types/sudoku.ts`. -/
structure SudokuPlay where
  board : SudokuBoard
  settings : SudokuPlaySettings
  selectedIndex : Option Nat
  deriving Repr, DecidableEq, Inhabited

/-- `PlayingSource` from `types/sudoku.ts`. -/
inductive PlayingSource where
  | DAILY | CHALLENGE | LEVEL | ENTERED
  deriving Repr, DecidableEq, Inhabited

/-- `DEFAULT_PLAY_SETTINGS` from `types/sudoku.ts`. -/
def DEFAULT_PLAY_SETTINGS : SudokuPlaySettings :=
  { pencilmarking := false, autoPencilmarks := false }

/-- `DEFAULT_APP_SETTINGS` from `types/sudoku.ts`. -/
def DEFAULT_APP_SETTINGS : SudokuAppSettings :=
  { showErrors := true, enableAnimations := true, symmetrical := false
    display := SudokuDisplay.NUMERIC }

-- =========================================================================
-- utils/sudokuScrambler.ts : random utilities and permutations
-- =========================================================================

/-- One step of the `SeededRandom` linear congruential generator:
`this.seed = (this.seed * 1664525 + 1013904223) >>> 0`.  The products stay
below `2^53`, so JS float arithmetic is exact and `>>> 0` is `% 2^32`. -/
def nextInt (seed : Nat) : Nat := (seed * 1664525 + 1013904223) % 4294967296

/-- Ascending sort of three numbers; models
`[v0, v1, v2].sort((a, b) => a - b)` on a three-element JS array. -/
def sort3 (a b c : Nat) : List Nat :=
  if a ≤ b then
    if b ≤ c then [a, b, c]
    else if a ≤ c then [a, c, b]
    else [c, a, b]
  else
    if a ≤ c then [b, a, c]
    else if b ≤ c then [b, c, a]
    else [c, b, a]

/-- `scramble3` from `utils/sudokuScrambler.ts`.  Returns the generated
permutation of `[0,1,2]` together with the generator state after the call
(the TS version advances the mutable `SeededRandom`). -/
def scramble3 (symmetrical : Bool) (seed : Nat) : List Nat × Nat :=
  if symmetrical then
    let s := nextInt seed
    (if s % 2 = 0 then [0, 1, 2] else [2, 1, 0], s)
  else
    let v0 := nextInt seed
    let v1 := nextInt v0
    let v2 := nextInt v1
    let values := [v0, v1, v2]
    let sorted := sort3 v0 v1 v2
    (sorted.map (fun v => values.indexOf v), v2)

/-- The result-assembly loop of `Scrambler.scramble9`:
`for i in 0..2: target = board[i] ?? 0; block = blocks[i] ?? [0,1,2];
for j in 0..2: result.push(target * 3 + block[j] ?? 0)`. -/
def assembleBlocks (board block0 block1 block2 : List Nat) : List Nat :=
  ((List.range 3).map (fun i =>
    let target := board.getD i 0
    let block := [block0, block1, block2].getD i [0, 1, 2]
    (List.range 3).map (fun j => target * 3 + block.getD j 0))).flatten

/-- `Scrambler.scramble9` from `utils/sudokuScrambler.ts`, with the
wall-clock seed (`Math.floor(Date.now() / 1000)`) passed explicitly.
When `symmetrical`, `block2` reuses `block0` and the generator does not
advance for it, exactly as in the source. -/
def scramble9 (symmetrical : Bool) (seed : Nat) : List Nat :=
  let r0 := scramble3 symmetrical seed
  let block0 := r0.1
  let r1 := scramble3 symmetrical r0.2
  let block1 := r1.1
  let r2 := if symmetrical then (block0, r1.2) else scramble3 symmetrical r1.2
  let block2 := r2.1
  let rb := scramble3 symmetrical r2.2
  let board := rb.1
  assembleBlocks board block0 block1 block2

/-- `ScramblerProtocol`: `scramble9(symmetrical)` with the call's
wall-clock seed made explicit as a second argument. -/
structure ScramblerProtocol where
  scramble9 : Bool → Nat → List Nat

/-- The time-seeded `Scrambler` object. -/
def Scrambler : ScramblerProtocol := ⟨fun symmetrical seed => scramble9 symmetrical seed⟩

/-- `NonScrambler`: always the identity permutation. -/
def NonScrambler : ScramblerProtocol := ⟨fun _ _ => [0, 1, 2, 3, 4, 5, 6, 7, 8]⟩

-- =========================================================================
-- utils/sudokuScrambler.ts : board scrambling
-- =========================================================================

/-- `ScrambleResult` from `utils/sudokuScrambler.ts`.  The JS `Map`s are
modelled as association lists in insertion order. -/
structure ScrambleResult where
  cells : List SudokuCell
  digitMapping : List (Nat × Nat)
  reverseDigitMapping : List (Nat × Nat)
  deriving Repr, DecidableEq, Inhabited

/-- JS `Map.set` on an association list: update the existing binding in
place, else append. -/
def mapSet (m : List (Nat × Nat)) (k v : Nat) : List (Nat × Nat) :=
  if m.any (fun kv => kv.1 = k) then
    m.map (fun kv => if kv.1 = k then (k, v) else kv)
  else
    m ++ [(k, v)]

/-- `mapDigit` from `utils/sudokuScrambler.ts`. -/
def mapDigit (digit : Option Nat) (lookup : List Nat) : Option Nat :=
  match digit with
  | none => none
  | some d =>
    if d = 0 then none
    else
      match lookup[d - 1]? with
      | some m => some (m + 1)
      | none => some d

/-- Ascending insertion of one element, helper for `sortAsc`. -/
def insertAsc (a : Nat) : List Nat → List Nat
  | [] => [a]
  | b :: l => if a ≤ b then a :: b :: l else b :: insertAsc a l

/-- Ascending insertion sort; models JS `array.sort((a, b) => a - b)` on a
list of naturals (equal elements are indistinguishable, so stability does
not matter). -/
def sortAsc : List Nat → List Nat
  | [] => []
  | a :: l => insertAsc a (sortAsc l)

/-- `mapPencilmarks` from `utils/sudokuScrambler.ts`. -/
def mapPencilmarks (pencilmarks : Option (List Nat)) (lookup : List Nat) :
    Option (List Nat) :=
  match pencilmarks with
  | none => none
  | some pm =>
    some (sortAsc ((pm.map (fun digit => mapDigit (some digit) lookup)).filterMap id))

/-- The body of `scrambleBoard` from `utils/sudokuScrambler.ts` after the
three `scramble9` calls: digit mappings and the scrambled cell array.
`none` models the `Missing cell` throw. -/
def scrambleBoardWith (rows columns numbers : List Nat)
    (cells : List SudokuCell) : Option ScrambleResult :=
  let maps := (List.range 9).foldl
    (fun (p : List (Nat × Nat) × List (Nat × Nat)) i =>
      (mapSet p.1 (i + 1) (numbers.getD i i + 1),
       mapSet p.2 (numbers.getD i i + 1) (i + 1)))
    ([], [])
  match (List.range 81).mapM (fun index =>
      let x := columnOf index
      let y := rowOf index
      let scrambledY := rows.getD y y
      let scrambledX := columns.getD x x
      (cells[scrambledY * 9 + scrambledX]?).map (fun existing =>
        { index := index
          solution := mapDigit existing.solution numbers
          given := mapDigit existing.given numbers
          input := mapDigit existing.input numbers
          pencilmarks := mapPencilmarks existing.pencilmarks numbers })) with
  | none => none
  | some scrambledCells =>
    some { cells := scrambledCells, digitMapping := maps.1
           reverseDigitMapping := maps.2 }

/-- `scrambleBoard` from `utils/sudokuScrambler.ts`: generate the three
permutations (`seeds` carries the wall-clock values at the three
`scramble9` calls), then build the mappings and the scrambled cells. -/
def scrambleBoard (scrambler : ScramblerProtocol) (cells : List SudokuCell)
    (symmetrical : Bool) (seeds : Nat × Nat × Nat) : Option ScrambleResult :=
  scrambleBoardWith (scrambler.scramble9 symmetrical seeds.1)
    (scrambler.scramble9 symmetrical seeds.2.1)
    (scrambler.scramble9 symmetrical seeds.2.2) cells

-- =========================================================================
-- utils/sudokuScrambler.ts : board parsing and serialization
-- =========================================================================

/-- `parseInt(char, 10)` on a single character: an ASCII digit parses to
its value, anything else is `NaN` (modelled as `none`). -/
def charDigit (c : Char) : Option Nat :=
  if 48 ≤ c.toNat ∧ c.toNat ≤ 57 then some (c.toNat - 48) else none

/-- `parseDigit` from `utils/sudokuScrambler.ts`. -/
def parseDigit (c : Char) : Option Nat :=
  if c = '0' ∨ c = '.' then none
  else
    match charDigit c with
    | some digit => if 1 ≤ digit ∧ digit ≤ 9 then some digit else none
    | none => none

/-- `parsePuzzleString` from `utils/sudokuScrambler.ts`.  `none` models a
throw.  The TS guard `if (solution && solution.length !== 81)` tests
truthiness, so an absent or empty solution string skips the length check;
`solutionChar ? parseDigit(solutionChar) : null` likewise only parses a
character that exists. -/
def parsePuzzleString (puzzle : String) (solution : Option String) :
    Option (List SudokuCell) :=
  if puzzle.length ≠ 81 then none
  else if solution.elim false (fun s => !(s == "") && !(s.length == 81)) then none
  else
    (List.range 81).mapM (fun index =>
      (puzzle.data[index]?).map (fun givenChar =>
        let givenDigit := parseDigit givenChar
        let solutionDigit :=
          match solution with
          | some s =>
            match s.data[index]? with
            | some solutionChar => parseDigit solutionChar
            | none => none
          | none => none
        { index := index
          solution := solutionDigit
          given := givenDigit
          input := none
          pencilmarks := none }))

/-- `cellsToPuzzleString` from `utils/sudokuScrambler.ts`:
`cells.map(cell => cell.given?.toString() ?? '0').join('')`. -/
def cellsToPuzzleString (cells : List SudokuCell) : String :=
  String.join (cells.map (fun cell => (cell.given.map toString).getD "0"))

-- =========================================================================
-- utils/board.ts : parseBoardString
-- =========================================================================

/-- The per-character step of `parseBoardString`:
`const value = char === '.' ? 0 : parseInt(char, 10);`
`if (isNaN(value) || value < 0 || value > 9) throw ...` (`none` models the
throw; a `Nat` value is never negative). -/
def parseBoardChar (c : Char) : Option Nat :=
  match (if c = '.' then some 0 else charDigit c) with
  | none => none
  | some value => if value > 9 then none else some value

/-- `parseBoardString` from `utils/board.ts`: 81-character string to a 9×9
number grid, `none` models the thrown `Error`s (wrong length, or a
character that is neither `.` nor an ASCII digit). -/
def parseBoardString (boardString : String) : Option (List (List Nat)) :=
  if boardString.length ≠ 81 then none
  else
    (List.range 9).mapM (fun row =>
      (List.range 9).mapM (fun col =>
        let index := row * 9 + col
        match boardString.data[index]? with
        | none => none
        | some c => parseBoardChar c))

-- =========================================================================
-- hooks/useSudoku.ts : state, actions
-- =========================================================================

/-- `SudokuState` from `hooks/useSudoku.ts`. -/
structure SudokuState where
  play : Option SudokuPlay
  originalPuzzle : String
  originalSolution : String
  source : PlayingSource
  levelUuid : Option String
  boardUuid : Option String
  history : List SudokuPlay
  appSettings : SudokuAppSettings
  digitMapping : List (Nat × Nat)
  reverseDigitMapping : List (Nat × Nat)
  deriving Repr, DecidableEq, Inhabited

/-- `Partial<SudokuAppSettings>` for the `UPDATE_APP_SETTINGS` action. -/
structure PartialAppSettings where
  showErrors : Option Bool
  enableAnimations : Option Bool
  symmetrical : Option Bool
  display : Option SudokuDisplay
  deriving Repr, DecidableEq, Inhabited

/-- Spread-merge `{ ...settings, ...partial }`. -/
def mergeAppSettings (settings : SudokuAppSettings) (p : PartialAppSettings) :
    SudokuAppSettings :=
  { showErrors := p.showErrors.getD settings.showErrors
    enableAnimations := p.enableAnimations.getD settings.enableAnimations
    symmetrical := p.symmetrical.getD settings.symmetrical
    display := p.display.getD settings.display }

/-- `SudokuAction` from `hooks/useSudoku.ts`. -/
inductive SudokuAction where
  | LOAD_BOARD (puzzle solution : String) (scramble symmetrical : Bool)
      (source : PlayingSource) (levelUuid boardUuid : Option String)
  | SELECT_CELL (index : Nat)
  | DESELECT_CELL
  | INPUT (value : Option Nat)
  | TOGGLE_PENCIL_MODE
  | SET_PENCIL_MODE (enabled : Bool)
  | UNDO
  | ERASE
  | AUTO_PENCILMARKS
  | UPDATE_APP_SETTINGS (settings : PartialAppSettings)
  | RESET
  deriving Repr, DecidableEq, Inhabited

/-- `createInitialState` from `hooks/useSudoku.ts` (the reducer always
calls it with a complete settings record, so the partial merge with
`DEFAULT_APP_SETTINGS` yields that record). -/
def createInitialState (appSettings : SudokuAppSettings) : SudokuState :=
  { play := none
    originalPuzzle := ""
    originalSolution := ""
    source := PlayingSource.LEVEL
    levelUuid := none
    boardUuid := none
    history := []
    appSettings := appSettings
    digitMapping := []
    reverseDigitMapping := [] }

/-- `cell.given ?? cell.input` (JS nullish coalescing). -/
def cellValue (c : SudokuCell) : Option Nat := c.given.or c.input

/-- The cell array produced by the `AUTO_PENCILMARKS` case of
`sudokuReducer` (assuming at most 81 cells, see `sudokuReducer`).  The
code builds one candidate `Set` per row/column/block, starting at
`{1..9}` and deleting every placed `given ?? input` value; a JS `Set`
iterates in insertion order, so `Array.from` of such a set, filtered and
then sorted ascending, is the ascending list of surviving digits, which
is what the filter over `[1..9]` below produces. -/
def autoPencilmarksCells (cells : List SudokuCell) : List SudokuCell :=
  let deleted := fun (unitOf : Nat → Nat) (u : Nat) (d : Nat) =>
    cells.enum.any (fun ic => unitOf ic.1 = u ∧ cellValue ic.2 = some d)
  cells.enum.map (fun ic =>
    match cellValue ic.2 with
    | some _ => { ic.2 with pencilmarks := some [] }
    | none =>
      let pencilmarks := ((List.range 9).map (fun k => k + 1)).filter (fun d =>
        !deleted rowOf (rowOf ic.1) d
          && !deleted columnOf (columnOf ic.1) d
          && !deleted blockOf (blockOf ic.1) d)
      { ic.2 with pencilmarks := some pencilmarks })

-- =========================================================================
-- hooks/useSudoku.ts : the reducer
-- =========================================================================

/-- `sudokuReducer` from `hooks/useSudoku.ts`.  `seeds` carries the
wall-clock seeds consumed by the `Scrambler` when `LOAD_BOARD` scrambles
(ignored by `NonScrambler`).  A `none` result models a thrown exception:
`parsePuzzleString` length errors in `LOAD_BOARD` / `RESET`, and the
`TypeError`s raised by calling `.includes`, `.filter`, `.length` on a
`null` pencilmarks array in `INPUT` / `ERASE`, or by indexing the
potentials arrays out of range in `AUTO_PENCILMARKS` when more than 81
cells are present. -/
def sudokuReducer (seeds : Nat × Nat × Nat) (state : SudokuState)
    (action : SudokuAction) : Option SudokuState :=
  match action with
  | .LOAD_BOARD puzzle solution scramble symmetrical source levelUuid boardUuid =>
    match parsePuzzleString puzzle (some solution) with
    | none => none
    | some cells =>
      let scrambler := if scramble then Scrambler else NonScrambler
      match scrambleBoard scrambler cells symmetrical seeds with
      | none => none
      | some scrambleResult =>
        let isComplete := scrambleResult.cells.all (fun cell =>
          match cell.given with
          | some _ => true
          | none => cell.input.isSome && cell.input == cell.solution)
        let board : SudokuBoard :=
          { cells := scrambleResult.cells, completed := isComplete
            entering := false, enteringError := none }
        let play : SudokuPlay :=
          { board := board, settings := DEFAULT_PLAY_SETTINGS
            selectedIndex := none }
        some { createInitialState state.appSettings with
               play := some play
               originalPuzzle := puzzle
               originalSolution := solution
               source := source
               levelUuid := levelUuid
               boardUuid := boardUuid
               digitMapping := scrambleResult.digitMapping
               reverseDigitMapping := scrambleResult.reverseDigitMapping
               appSettings := state.appSettings }
  | .SELECT_CELL index =>
    match state.play with
    | none => some state
    | some play =>
      if play.board.completed then some state
      else some { state with play := some { play with selectedIndex := some index } }
  | .DESELECT_CELL =>
    match state.play with
    | none => some state
    | some play =>
      some { state with play := some { play with selectedIndex := none } }
  | .INPUT value =>
    match state.play with
    | none => some state
    | some play =>
      match play.selectedIndex with
      | none => some state
      | some selectedIndex =>
        if play.board.completed then some state
        else
          match play.board.cells[selectedIndex]? with
          | none => some state
          | some cell =>
            if cell.given ≠ none then some state
            else if play.settings.pencilmarking then
              match value with
              | none => some state
              | some v =>
                match cell.pencilmarks with
                | none => none
                | some pm =>
                  let newPencilmarks :=
                    if pm.contains v then pm.filter (fun p => p ≠ v)
                    else sortAsc (pm ++ [v])
                  let newCell : SudokuCell :=
                    { cell with input := none, pencilmarks := some newPencilmarks }
                  let newCells := play.board.cells.set selectedIndex newCell
                  some { state with
                         history := state.history ++ [play]
                         play := some { play with
                                        board := { play.board with cells := newCells } } }
            else
              let row := rowOf selectedIndex
              let column := columnOf selectedIndex
              let block := blockOf selectedIndex
              match play.board.cells.enum.mapM (fun ic =>
                  let c := ic.2
                  if c.given ≠ none then some c
                  else if ic.1 = selectedIndex then
                    some { c with
                           input := value
                           pencilmarks :=
                             if value ≠ none then some [] else c.pencilmarks }
                  else
                    match value with
                    | some v =>
                      if rowOf ic.1 = row ∨ columnOf ic.1 = column ∨ blockOf ic.1 = block then
                        match c.pencilmarks with
                        | none => none
                        | some pm => some { c with pencilmarks := some (pm.filter (fun p => p ≠ v)) }
                      else some c
                    | none => some c) with
              | none => none
              | some newCells =>
                let completed := newCells.all (fun c =>
                  c.given ≠ none || c.input == c.solution)
                some { state with
                       history := state.history ++ [play]
                       play := some { play with
                                      board := { play.board with
                                                 cells := newCells
                                                 completed := completed }
                                      selectedIndex := none } }
  | .TOGGLE_PENCIL_MODE =>
    match state.play with
    | none => some state
    | some play =>
      some { state with
             play := some { play with
                            settings := { play.settings with
                                          pencilmarking := !play.settings.pencilmarking } } }
  | .SET_PENCIL_MODE enabled =>
    match state.play with
    | none => some state
    | some play =>
      some { state with
             play := some { play with
                            settings := { play.settings with
                                          pencilmarking := enabled } } }
  | .UNDO =>
    match state.history.getLast? with
    | none => some state
    | some previousPlay =>
      some { state with history := state.history.dropLast, play := some previousPlay }
  | .ERASE =>
    match state.play with
    | none => some state
    | some play =>
      match play.selectedIndex with
      | none => some state
      | some selectedIndex =>
        if play.board.completed then some state
        else
          match play.board.cells[selectedIndex]? with
          | none => some state
          | some cell =>
            if cell.given ≠ none then some state
            else if play.settings.pencilmarking then
              match cell.pencilmarks with
              | none => none
              | some pm =>
                if pm.length = 0 then some state
                else
                  let newCell : SudokuCell := { cell with pencilmarks := some [] }
                  let newCells := play.board.cells.set selectedIndex newCell
                  some { state with
                         history := state.history ++ [play]
                         play := some { play with
                                        board := { play.board with cells := newCells } } }
            else
              if cell.input = none then some state
              else
                let newCell : SudokuCell := { cell with input := none }
                let newCells := play.board.cells.set selectedIndex newCell
                some { state with
                       history := state.history ++ [play]
                       play := some { play with
                                      board := { play.board with cells := newCells } } }
  | .AUTO_PENCILMARKS =>
    match state.play with
    | none => some state
    | some play =>
      if play.board.completed then some state
      else if play.board.cells.length > 81 then none
      else
        some { state with
               history := state.history ++ [play]
               play := some { play with
                              board := { play.board with
                                         cells := autoPencilmarksCells play.board.cells }
                              settings := { play.settings with autoPencilmarks := true } } }
  | .UPDATE_APP_SETTINGS settings =>
    some { state with appSettings := mergeAppSettings state.appSettings settings }
  | .RESET =>
    match state.play with
    | none => some state
    | some _ =>
      match parsePuzzleString state.originalPuzzle (some state.originalSolution) with
      | none => none
      | some cells =>
        let newCells? :=
          if state.digitMapping.length > 0 then
            (scrambleBoard NonScrambler cells false seeds).map (fun r => r.cells)
          else some cells
        match newCells? with
        | none => none
        | some newCells =>
          let board : SudokuBoard :=
            { cells := newCells, completed := false
              entering := false, enteringError := none }
          let play : SudokuPlay :=
            { board := board, settings := DEFAULT_PLAY_SETTINGS
              selectedIndex := none }
          some { state with play := some play, history := [] }

/-- Left-to-right application of a list of actions, stopping at the first
thrown exception. -/
def applyActions (seeds : Nat × Nat × Nat) (state : SudokuState)
    (actions : List SudokuAction) : Option SudokuState :=
  actions.foldlM (fun s a => sudokuReducer seeds s a) state

-- =========================================================================
-- Verification-level definitions
-- =========================================================================

/-- The six permutations of `[0, 1, 2]` as lists. -/
def perm3 (l : List Nat) : Prop :=
  l ∈ [[0, 1, 2], [0, 2, 1], [1, 0, 2], [1, 2, 0], [2, 0, 1], [2, 1, 0]]

instance (l : List Nat) : Decidable (perm3 l) := by unfold perm3; infer_instance

/-- The band-structured composition `scramble9` builds: entry `k` is
`board[k / 3] * 3 + blocks[k / 3][k % 3]`. -/
def bandFun (t b0 b1 b2 : List Nat) (k : Nat) : Nat :=
  t.getD (k / 3) 0 * 3 + ([b0, b1, b2].getD (k / 3) []).getD (k % 3) 0

/-- Solution value of the cell at flat index `i`. -/
def solAt (cells : List SudokuCell) (i : Nat) : Option Nat :=
  (cells[i]?).bind (fun c => c.solution)

/-- Solution value at row `y`, column `x`. -/
def solFun (cells : List SudokuCell) (y x : Nat) : Option Nat :=
  solAt cells (y * 9 + x)

/-- A valid Sudoku solution: every row, every column and every block
contains each digit 1–9 exactly once. -/
def ValidSolution (f : Nat → Nat → Option Nat) : Prop :=
  (∀ d ∈ Finset.Icc 1 9, ∀ y ∈ Finset.range 9,
    ((Finset.range 9).filter (fun x => f y x = some d)).card = 1) ∧
  (∀ d ∈ Finset.Icc 1 9, ∀ x ∈ Finset.range 9,
    ((Finset.range 9).filter (fun y => f y x = some d)).card = 1) ∧
  (∀ d ∈ Finset.Icc 1 9, ∀ b ∈ Finset.range 9,
    ((Finset.range 9).filter
      (fun p => f (b / 3 * 3 + p / 3) (b % 3 * 3 + p % 3) = some d)).card = 1)

instance (f : Nat → Nat → Option Nat) : Decidable (ValidSolution f) := by
  unfold ValidSolution; infer_instance

/-- The character alphabet accepted by the board codec according to the
specification: `0`, `.`, and the digits (ASCII 48–57 covers `0`–`9`). -/
def boardChar (c : Char) : Prop := c = '.' ∨ (48 ≤ c.toNat ∧ c.toNat ≤ 57)

instance (c : Char) : Decidable (boardChar c) := by unfold boardChar; infer_instance

/-- The in-play actions: every reducer action except `LOAD_BOARD` and
`RESET`, the two that replace the board wholesale.  The
clue-immutability claim's `INPUT`, `ERASE` and `UNDO` are among them,
together with the selection, pencil-mode, auto-pencilmark and
app-settings actions that set such moves up mid-game. -/
def inPlayAction (a : SudokuAction) : Prop :=
  match a with
  | SudokuAction.LOAD_BOARD _ _ _ _ _ _ _ => False
  | SudokuAction.RESET => False
  | _ => True

/-- The clue profile of a play: every present cell's `given` matches `g`
at its position, and cells whose `given` is present have no `input`. -/
def playCluesMatch (g : List (Option Nat)) (p : SudokuPlay) : Prop :=
  ∀ i c, p.board.cells[i]? = some c →
    c.given = g.getD i none ∧ (c.given ≠ none → c.input = none)

/-- Clue profile of a whole reducer state: current play and every history
snapshot. -/
def stateCluesMatch (g : List (Option Nat)) (s : SudokuState) : Prop :=
  (∀ p, s.play = some p → playCluesMatch g p) ∧ ∀ p ∈ s.history, playCluesMatch g p

-- =========================================================================
-- Concrete data for counterexamples and witnesses
-- =========================================================================

/-- The sample puzzle used by the repository's own test-suite. -/
def samplePuzzle : String :=
  "530070000600195000098000060800060003400803001700020006060000280000419005000080079"

/-- The matching sample solution. -/
def sampleSolution : String :=
  "534678912672195348198342567859761423426853791713924856961537284287419635345286179"

/-- The sample solution with its last cell blanked: one placement away
from completion. -/
def sampleAlmostDone : String :=
  "534678912672195348198342567859761423426853791713924856961537284287419635345286170"

/-- The empty initial reducer state. -/
def initState : SudokuState := createInitialState DEFAULT_APP_SETTINGS

/-- State after loading the almost-finished sample board (unscrambled),
selecting the one open cell and entering its correct digit: the board is
completed and the history is non-empty. -/
def completedViaInput : Option SudokuState :=
  applyActions (0, 0, 0) initState
    [SudokuAction.LOAD_BOARD sampleAlmostDone sampleSolution false false
       PlayingSource.LEVEL none none,
     SudokuAction.SELECT_CELL 80,
     SudokuAction.INPUT (some 9)]

/-- The completed state above after one `UNDO`. -/
def undoneAfterCompletion : Option SudokuState :=
  completedViaInput.bind (fun s => sudokuReducer (0, 0, 0) s SudokuAction.UNDO)

/-- State after loading the sample board with scrambling on, at
wall-clock seeds `(0, 0, 0)`. -/
def loadedScrambled : Option SudokuState :=
  sudokuReducer (0, 0, 0) initState
    (SudokuAction.LOAD_BOARD samplePuzzle sampleSolution true false
       PlayingSource.LEVEL none none)

/-- The scrambled state above after a `RESET` (same wall-clock seeds). -/
def resetAfterScrambled : Option SudokuState :=
  loadedScrambled.bind (fun s => sudokuReducer (0, 0, 0) s SudokuAction.RESET)

/-- The current board cells of an optional reducer state. -/
def stateCells (s? : Option SudokuState) : Option (List SudokuCell) :=
  s?.bind (fun s => s.play.map (fun p => p.board.cells))

/-- The current completion flag of an optional reducer state. -/
def stateCompleted (s? : Option SudokuState) : Option Bool :=
  s?.bind (fun s => s.play.map (fun p => p.board.completed))

def sampleCells : List SudokuCell :=
  (parsePuzzleString samplePuzzle (some sampleSolution)).getD []

example : sampleCells.length = 81 := by decide
example : ValidSolution (solFun sampleCells) := by decide

def sampleScrambledResult : ScrambleResult :=
  (scrambleBoard Scrambler sampleCells false (0, 1, 2)).getD default

def loadedPlain : Option SudokuState :=
  sudokuReducer (0, 0, 0) initState
    (SudokuAction.LOAD_BOARD samplePuzzle sampleSolution false false
      PlayingSource.LEVEL none none)

def loadedPlainState : SudokuState := loadedPlain.getD initState

def loadedPlainPlay : SudokuPlay := loadedPlainState.play.getD default

def gameplayDemo : List SudokuAction :=
  [SudokuAction.SELECT_CELL 0, SudokuAction.INPUT (some 9),
   SudokuAction.AUTO_PENCILMARKS, SudokuAction.SELECT_CELL 2,
   SudokuAction.INPUT (some 1), SudokuAction.SELECT_CELL 2,
   SudokuAction.ERASE, SudokuAction.UNDO]

def afterGameplayDemo : SudokuState :=
  (applyActions (0, 0, 0) loadedPlainState gameplayDemo).getD initState

/-- The candidate list the second pass of `AUTO_PENCILMARKS` computes for
the empty cell at index `i`: the digits 1–9 whose row, column and block
candidate sets all survive, i.e. that occur as a `given ?? input` value
nowhere in the cell's row, column or block. -/
def autoCandidates (cells : List SudokuCell) (i : Nat) : List Nat :=
  ((List.range 9).map (fun k => k + 1)).filter (fun d =>
    !(cells.enum.any (fun ic => rowOf ic.1 = rowOf i ∧ cellValue ic.2 = some d))
    && !(cells.enum.any (fun ic => columnOf ic.1 = columnOf i ∧ cellValue ic.2 = some d))
    && !(cells.enum.any (fun ic => blockOf ic.1 = blockOf i ∧ cellValue ic.2 = some d)))

def tinyPlay : SudokuPlay :=
  { board := { cells := [⟨0, some 1, some 1, none, none⟩,
                         ⟨1, some 2, none, none, none⟩]
               completed := false, entering := false, enteringError := none }
    settings := DEFAULT_PLAY_SETTINGS, selectedIndex := none }

def tinyState : SudokuState := { initState with play := some tinyPlay }

def afterAutoPencil : SudokuState :=
  (sudokuReducer (0, 0, 0) tinyState SudokuAction.AUTO_PENCILMARKS).getD initState

-- =========================================================================
-- Helper lemmas: the LCG and 3-permutations
-- =========================================================================

lemma nextInt_lt (s : Nat) : nextInt s < 4294967296 := Nat.mod_lt _ (by norm_num)

lemma nextInt_ne_self (s : Nat) : nextInt s ≠ s := by
  unfold nextInt
  omega

lemma nextInt_nextInt_ne (s : Nat) : nextInt (nextInt s) ≠ s := by
  unfold nextInt
  omega

lemma indexOf3_spec (v0 v1 v2 : Nat) (h01 : v0 ≠ v1) (h02 : v0 ≠ v2) (h12 : v1 ≠ v2) :
    [v0, v1, v2].indexOf v0 = 0 ∧ [v0, v1, v2].indexOf v1 = 1 ∧
      [v0, v1, v2].indexOf v2 = 2 := by
  refine ⟨?_, ?_, ?_⟩ <;>
    simp [List.indexOf, List.findIdx_cons, beq_eq_false_iff_ne.mpr h01,
      beq_eq_false_iff_ne.mpr h02, beq_eq_false_iff_ne.mpr h12]

lemma scramble3_perm3 (symmetrical : Bool) (seed : Nat) :
    perm3 (scramble3 symmetrical seed).1 := by
  cases symmetrical
  case true =>
    unfold scramble3
    by_cases h : nextInt seed % 2 = 0 <;> simp [h, perm3]
  case false =>
    unfold scramble3
    simp only [Bool.false_eq_true, if_false, ite_false]
    have h01 : nextInt seed ≠ nextInt (nextInt seed) := (nextInt_ne_self _).symm
    have h12 : nextInt (nextInt seed) ≠ nextInt (nextInt (nextInt seed)) :=
      (nextInt_ne_self _).symm
    have h02 : nextInt seed ≠ nextInt (nextInt (nextInt seed)) :=
      (nextInt_nextInt_ne _).symm
    set v0 := nextInt seed with hv0
    set v1 := nextInt v0 with hv1
    set v2 := nextInt v1 with hv2
    obtain ⟨i0, i1, i2⟩ := indexOf3_spec v0 v1 v2 h01 h02 h12
    rcases Nat.lt_trichotomy v0 v1 with hab | hab | hab
    · rcases Nat.lt_trichotomy v1 v2 with hbc | hbc | hbc
      · have hs : sort3 v0 v1 v2 = [v0, v1, v2] := by
          unfold sort3
          rw [if_pos (Nat.le_of_lt hab), if_pos (Nat.le_of_lt hbc)]
        rw [hs]; simp [i0, i1, i2, perm3]
      · exact absurd hbc h12
      · rcases Nat.lt_trichotomy v0 v2 with hac | hac | hac
        · have hs : sort3 v0 v1 v2 = [v0, v2, v1] := by
            unfold sort3
            rw [if_pos (Nat.le_of_lt hab), if_neg (by omega), if_pos (Nat.le_of_lt hac)]
          rw [hs]; simp [i0, i1, i2, perm3]
        · exact absurd hac h02
        · have hs : sort3 v0 v1 v2 = [v2, v0, v1] := by
            unfold sort3
            rw [if_pos (Nat.le_of_lt hab), if_neg (by omega), if_neg (by omega)]
          rw [hs]; simp [i0, i1, i2, perm3]
    · exact absurd hab h01
    · rcases Nat.lt_trichotomy v0 v2 with hac | hac | hac
      · have hs : sort3 v0 v1 v2 = [v1, v0, v2] := by
          unfold sort3
          rw [if_neg (by omega), if_pos (Nat.le_of_lt hac)]
        rw [hs]; simp [i0, i1, i2, perm3]
      · exact absurd hac h02
      · rcases Nat.lt_trichotomy v1 v2 with hbc | hbc | hbc
        · have hs : sort3 v0 v1 v2 = [v1, v2, v0] := by
            unfold sort3
            rw [if_neg (by omega), if_neg (by omega), if_pos (Nat.le_of_lt hbc)]
          rw [hs]; simp [i0, i1, i2, perm3]
        · exact absurd hbc h12
        · have hs : sort3 v0 v1 v2 = [v2, v1, v0] := by
            unfold sort3
            rw [if_neg (by omega), if_neg (by omega), if_neg (by omega)]
          rw [hs]; simp [i0, i1, i2, perm3]

lemma perm3_cases (l : List Nat) (h : perm3 l) :
    l = [0, 1, 2] ∨ l = [0, 2, 1] ∨ l = [1, 0, 2] ∨ l = [1, 2, 0] ∨
      l = [2, 0, 1] ∨ l = [2, 1, 0] := by
  simpa [perm3] using h

lemma card_filter_eq_one_iff (n : Nat) (p : Nat → Prop) [DecidablePred p] :
    ((Finset.range n).filter p).card = 1 ↔ ∃! k, k < n ∧ p k := by
  constructor
  · intro h
    obtain ⟨a, ha⟩ := Finset.card_eq_one.mp h
    have hamem : a ∈ (Finset.range n).filter p := by
      rw [ha]; exact Finset.mem_singleton_self a
    rw [Finset.mem_filter, Finset.mem_range] at hamem
    refine ⟨a, ⟨hamem.1, hamem.2⟩, ?_⟩
    intro y hy
    have hy2 : y ∈ (Finset.range n).filter p := by
      rw [Finset.mem_filter, Finset.mem_range]; exact hy
    rw [ha, Finset.mem_singleton] at hy2
    exact hy2
  · rintro ⟨a, ⟨han, hap⟩, huniq⟩
    rw [Finset.card_eq_one]
    refine ⟨a, ?_⟩
    rw [Finset.eq_singleton_iff_unique_mem]
    constructor
    · rw [Finset.mem_filter, Finset.mem_range]; exact ⟨han, hap⟩
    · intro y hy
      rw [Finset.mem_filter, Finset.mem_range] at hy
      exact huniq y hy

lemma perm3_getD_lt (l : List Nat) (h : perm3 l) (j : Nat) (hj : j < 3) :
    l.getD j 0 < 3 := by
  rcases perm3_cases l h with h | h | h | h | h | h <;> subst h <;>
    interval_cases j <;> decide

lemma perm3_existsUnique (l : List Nat) (h : perm3 l) (m : Nat) (hm : m < 3) :
    ∃! j, j < 3 ∧ l.getD j 0 = m := by
  rw [← card_filter_eq_one_iff]
  rcases perm3_cases l h with h | h | h | h | h | h <;> subst h <;>
    interval_cases m <;> decide

lemma getD_default_irrel (l : List Nat) (k : Nat) (hk : k < l.length) (d1 d2 : Nat) :
    l.getD k d1 = l.getD k d2 := by
  simp [List.getD_eq_getElem?_getD, List.getElem?_eq_getElem hk]

-- =========================================================================
-- Helper lemmas: structure of scramble9
-- =========================================================================

lemma assembleBlocks_length (t b0 b1 b2 : List Nat) :
    (assembleBlocks t b0 b1 b2).length = 9 := rfl

lemma assembleBlocks_getD (t b0 b1 b2 : List Nat) (k d : Nat) (hk : k < 9) :
    (assembleBlocks t b0 b1 b2).getD k d = bandFun t b0 b1 b2 k := by
  interval_cases k <;> rfl

lemma blist_perm3 (b0 b1 b2 : List Nat) (hb0 : perm3 b0) (hb1 : perm3 b1)
    (hb2 : perm3 b2) (i : Nat) (hi : i < 3) : perm3 ([b0, b1, b2].getD i []) := by
  interval_cases i <;> assumption

lemma bandFun_lt (t b0 b1 b2 : List Nat) (ht : perm3 t) (hb0 : perm3 b0)
    (hb1 : perm3 b1) (hb2 : perm3 b2) (k : Nat) (hk : k < 9) :
    bandFun t b0 b1 b2 k < 9 := by
  unfold bandFun
  have h3 : k / 3 < 3 := by omega
  have hmod : k % 3 < 3 := by omega
  have h1 : t.getD (k / 3) 0 < 3 := perm3_getD_lt t ht _ h3
  have h2 : ([b0, b1, b2].getD (k / 3) []).getD (k % 3) 0 < 3 :=
    perm3_getD_lt _ (blist_perm3 b0 b1 b2 hb0 hb1 hb2 _ h3) _ hmod
  omega

lemma bandFun_existsUnique (t b0 b1 b2 : List Nat) (ht : perm3 t) (hb0 : perm3 b0)
    (hb1 : perm3 b1) (hb2 : perm3 b2) (m : Nat) (hm : m < 9) :
    ∃! k, k < 9 ∧ bandFun t b0 b1 b2 k = m := by
  obtain ⟨jb, ⟨hjb3, hjbv⟩, hjbu⟩ := perm3_existsUnique t ht (m / 3) (by omega)
  obtain ⟨s, ⟨hs3, hsv⟩, hsu⟩ :=
    perm3_existsUnique _ (blist_perm3 b0 b1 b2 hb0 hb1 hb2 jb hjb3) (m % 3) (by omega)
  have hdiv : (jb * 3 + s) / 3 = jb := by omega
  have hmod : (jb * 3 + s) % 3 = s := by omega
  refine ⟨jb * 3 + s, ⟨by omega, ?_⟩, ?_⟩
  · unfold bandFun
    rw [hdiv, hmod, hjbv, hsv]
    omega
  · rintro k2 ⟨hk2, hv2⟩
    unfold bandFun at hv2
    have hj2 : k2 / 3 < 3 := by omega
    have hs2 : k2 % 3 < 3 := by omega
    have hb : ([b0, b1, b2].getD (k2 / 3) []).getD (k2 % 3) 0 < 3 :=
      perm3_getD_lt _ (blist_perm3 b0 b1 b2 hb0 hb1 hb2 _ hj2) _ hs2
    have htb : t.getD (k2 / 3) 0 < 3 := perm3_getD_lt t ht _ hj2
    have heq1 : t.getD (k2 / 3) 0 = m / 3 := by omega
    have heq2 : ([b0, b1, b2].getD (k2 / 3) []).getD (k2 % 3) 0 = m % 3 := by omega
    have hjeq : k2 / 3 = jb := hjbu (k2 / 3) ⟨hj2, heq1⟩
    rw [hjeq] at heq2
    have hseq : k2 % 3 = s := hsu (k2 % 3) ⟨hs2, heq2⟩
    omega

lemma nonScramble9_eq_assembleBlocks :
    [0, 1, 2, 3, 4, 5, 6, 7, 8] =
      assembleBlocks [0, 1, 2] [0, 1, 2] [0, 1, 2] [0, 1, 2] := rfl

lemma scramble9_struct (symmetrical : Bool) (seed : Nat) :
    ∃ t b0 b1 b2, perm3 t ∧ perm3 b0 ∧ perm3 b1 ∧ perm3 b2 ∧
      scramble9 symmetrical seed = assembleBlocks t b0 b1 b2 ∧
      (symmetrical = true → b2 = b0) := by
  cases symmetrical
  case false =>
    refine ⟨(scramble3 false (scramble3 false (scramble3 false (scramble3 false seed).2).2).2).1,
      (scramble3 false seed).1,
      (scramble3 false (scramble3 false seed).2).1,
      (scramble3 false (scramble3 false (scramble3 false seed).2).2).1,
      scramble3_perm3 false _, scramble3_perm3 false seed,
      scramble3_perm3 false _, scramble3_perm3 false _, ?_, fun h => Bool.noConfusion h⟩
    unfold scramble9
    simp only [Bool.false_eq_true, if_false, ite_false]
  case true =>
    refine ⟨(scramble3 true (scramble3 true (scramble3 true seed).2).2).1,
      (scramble3 true seed).1,
      (scramble3 true (scramble3 true seed).2).1,
      (scramble3 true seed).1,
      scramble3_perm3 true _, scramble3_perm3 true seed,
      scramble3_perm3 true _, scramble3_perm3 true seed, ?_, fun _ => rfl⟩
    unfold scramble9
    simp only [if_true, ite_true]

-- =========================================================================
-- Helper lemmas: mapM over Option and the scrambled cell array
-- =========================================================================

lemma mapM_option_eq_map {α β : Type} (l : List α) (f : α → Option β) (g : α → β)
    (h : ∀ a ∈ l, f a = some (g a)) : l.mapM f = some (l.map g) := by
  induction l with
  | nil => rfl
  | cons a l ih =>
    rw [List.mapM_cons, h a (List.mem_cons_self a l),
      ih (fun b hb => h b (List.mem_cons_of_mem a hb))]
    rfl

lemma mapM_option_eq_none_iff {α β : Type} (l : List α) (f : α → Option β) :
    l.mapM f = none ↔ ∃ a ∈ l, f a = none := by
  induction l with
  | nil =>
    rw [List.mapM_nil]
    simp
  | cons a l ih =>
    rw [List.mapM_cons]
    cases hfa : f a with
    | none =>
      exact iff_of_true rfl ⟨a, List.mem_cons_self a l, hfa⟩
    | some b =>
      cases hrest : l.mapM f with
      | none =>
        obtain ⟨x, hx, hfx⟩ := ih.mp hrest
        exact iff_of_true rfl ⟨x, List.mem_cons_of_mem a hx, hfx⟩
      | some bs =>
        refine iff_of_false (by simp) ?_
        rintro ⟨x, hx, hfx⟩
        rcases List.mem_cons.mp hx with hx | hx
        · rw [hx] at hfx
          rw [hfa] at hfx
          exact Option.noConfusion hfx
        · have hc : l.mapM f = none := ih.mpr ⟨x, hx, hfx⟩
          rw [hc] at hrest
          exact Option.noConfusion hrest

lemma scrambleBoardWith_spec (rows columns numbers : List Nat)
    (cells : List SudokuCell) (h81 : cells.length = 81)
    (hr : ∀ y, y < 9 → rows.getD y y < 9)
    (hc : ∀ x, x < 9 → columns.getD x x < 9) :
    ∃ res, scrambleBoardWith rows columns numbers cells = some res ∧
      res.cells.length = 81 ∧
      ∀ i, i < 81 →
        ∃ existing,
          cells[rows.getD (rowOf i) (rowOf i) * 9 +
            columns.getD (columnOf i) (columnOf i)]? = some existing ∧
          res.cells[i]? = some
            { index := i
              solution := mapDigit existing.solution numbers
              given := mapDigit existing.given numbers
              input := mapDigit existing.input numbers
              pencilmarks := mapPencilmarks existing.pencilmarks numbers } := by
  have hsrc : ∀ i, i < 81 →
      rows.getD (rowOf i) (rowOf i) * 9 + columns.getD (columnOf i) (columnOf i) < 81 := by
    intro i hi
    have h1 : rows.getD (rowOf i) (rowOf i) < 9 := hr _ (by unfold rowOf; omega)
    have h2 : columns.getD (columnOf i) (columnOf i) < 9 := hc _ (by unfold columnOf; omega)
    omega
  have hmap : ∀ i ∈ List.range 81,
      ((cells[rows.getD (rowOf i) (rowOf i) * 9 +
          columns.getD (columnOf i) (columnOf i)]?).map (fun existing =>
        ({ index := i
           solution := mapDigit existing.solution numbers
           given := mapDigit existing.given numbers
           input := mapDigit existing.input numbers
           pencilmarks := mapPencilmarks existing.pencilmarks numbers } : SudokuCell))) =
      some ({ index := i
              solution := mapDigit (cells.getD (rows.getD (rowOf i) (rowOf i) * 9 +
                columns.getD (columnOf i) (columnOf i)) default).solution numbers
              given := mapDigit (cells.getD (rows.getD (rowOf i) (rowOf i) * 9 +
                columns.getD (columnOf i) (columnOf i)) default).given numbers
              input := mapDigit (cells.getD (rows.getD (rowOf i) (rowOf i) * 9 +
                columns.getD (columnOf i) (columnOf i)) default).input numbers
              pencilmarks := mapPencilmarks (cells.getD (rows.getD (rowOf i) (rowOf i) * 9 +
                columns.getD (columnOf i) (columnOf i)) default).pencilmarks numbers } : SudokuCell) := by
    intro i hi
    rw [List.mem_range] at hi
    have hlt : rows.getD (rowOf i) (rowOf i) * 9 + columns.getD (columnOf i) (columnOf i) <
        cells.length := by rw [h81]; exact hsrc i hi
    rw [List.getElem?_eq_getElem hlt, Option.map_some']
    congr 1
    all_goals rw [List.getD_eq_getElem cells default hlt]
  unfold scrambleBoardWith
  rw [mapM_option_eq_map _ _ _ hmap]
  refine ⟨_, rfl, by simp, ?_⟩
  intro i hi
  refine ⟨cells.getD (rows.getD (rowOf i) (rowOf i) * 9 +
    columns.getD (columnOf i) (columnOf i)) default, ?_, ?_⟩
  · have hlt : rows.getD (rowOf i) (rowOf i) * 9 + columns.getD (columnOf i) (columnOf i) <
        cells.length := by rw [h81]; exact hsrc i hi
    rw [List.getElem?_eq_getElem hlt, List.getD_eq_getElem cells default hlt]
  · simp only [List.getElem?_map, List.getElem?_range, hi, if_pos]
    rfl

lemma validRow_total (f : Nat → Nat → Option Nat) (y : Nat)
    (hrow : ∀ d, 1 ≤ d → d ≤ 9 → ∃! x, x < 9 ∧ f y x = some d)
    (x : Nat) (hx : x < 9) : ∃ d, 1 ≤ d ∧ d ≤ 9 ∧ f y x = some d := by
  by_contra hcon
  push_neg at hcon
  classical
  let F : Nat → Nat := fun d =>
    if h : 1 ≤ d ∧ d ≤ 9 then (hrow d h.1 h.2).exists.choose else 0
  have hFspec : ∀ d, 1 ≤ d → d ≤ 9 → F d < 9 ∧ f y (F d) = some d := by
    intro d h1 h9
    have : F d = (hrow d h1 h9).exists.choose := by
      simp only [F, dif_pos (And.intro h1 h9)]
    rw [this]
    exact (hrow d h1 h9).exists.choose_spec
  have hmaps : ∀ d ∈ Finset.Icc 1 9, F d ∈ (Finset.range 9).erase x := by
    intro d hd
    rw [Finset.mem_Icc] at hd
    obtain ⟨hF9, hFv⟩ := hFspec d hd.1 hd.2
    rw [Finset.mem_erase, Finset.mem_range]
    refine ⟨?_, hF9⟩
    intro hFx
    rw [hFx] at hFv
    exact hcon d hd.1 hd.2 hFv
  have hinj : Set.InjOn F (Finset.Icc 1 9) := by
    intro d1 hd1 d2 hd2 hF
    rw [Finset.coe_Icc, Set.mem_Icc] at hd1 hd2
    obtain ⟨_, h1v⟩ := hFspec d1 hd1.1 hd1.2
    obtain ⟨_, h2v⟩ := hFspec d2 hd2.1 hd2.2
    rw [hF] at h1v
    rw [h1v] at h2v
    injection h2v
  have hcard := Finset.card_le_card_of_injOn F hmaps hinj
  rw [Nat.card_Icc, Finset.card_erase_of_mem (Finset.mem_range.mpr hx),
    Finset.card_range] at hcard
  omega

lemma rowOf_mul_add (y x : Nat) (hx : x < 9) : rowOf (y * 9 + x) = y := by
  unfold rowOf; omega

lemma columnOf_mul_add (y x : Nat) (hx : x < 9) : columnOf (y * 9 + x) = x := by
  unfold columnOf; omega

lemma bandFun_decomp (t b0 b1 b2 : List Nat) (i j : Nat) (hj : j < 3) :
    bandFun t b0 b1 b2 (i * 3 + j) =
      t.getD i 0 * 3 + ([b0, b1, b2].getD i []).getD j 0 := by
  unfold bandFun
  have h1 : (i * 3 + j) / 3 = i := by omega
  have h2 : (i * 3 + j) % 3 = j := by omega
  rw [h1, h2]

lemma assembleBlocks_getElem? (t b0 b1 b2 : List Nat) (v : Nat) (hv : v < 9) :
    (assembleBlocks t b0 b1 b2)[v]? = some (bandFun t b0 b1 b2 v) := by
  have hlen : v < (assembleBlocks t b0 b1 b2).length := by
    rw [assembleBlocks_length]; exact hv
  rw [List.getElem?_eq_getElem hlen, ← List.getD_eq_getElem _ 0 hlen,
    assembleBlocks_getD t b0 b1 b2 v 0 hv]

lemma mapDigit_assembleBlocks_some (tn n0 n1 n2 : List Nat) (v : Nat)
    (h1 : 1 ≤ v) (h9 : v ≤ 9) :
    mapDigit (some v) (assembleBlocks tn n0 n1 n2) =
      some (bandFun tn n0 n1 n2 (v - 1) + 1) := by
  simp only [mapDigit]
  rw [if_neg (show ¬v = 0 by omega),
    assembleBlocks_getElem? tn n0 n1 n2 (v - 1) (by omega)]

lemma mapDigit_existsUnique (tn n0 n1 n2 : List Nat) (htn : perm3 tn)
    (hn0 : perm3 n0) (hn1 : perm3 n1) (hn2 : perm3 n2) (e : Nat)
    (h1 : 1 ≤ e) (h9 : e ≤ 9) :
    ∃! v, (1 ≤ v ∧ v ≤ 9) ∧
      mapDigit (some v) (assembleBlocks tn n0 n1 n2) = some e := by
  obtain ⟨k, ⟨hk9, hkv⟩, hku⟩ :=
    bandFun_existsUnique tn n0 n1 n2 htn hn0 hn1 hn2 (e - 1) (by omega)
  refine ⟨k + 1, ⟨⟨by omega, by omega⟩, ?_⟩, ?_⟩
  · rw [mapDigit_assembleBlocks_some tn n0 n1 n2 (k + 1) (by omega) (by omega)]
    have hke : k + 1 - 1 = k := by omega
    rw [hke, hkv]
    congr 1
    omega
  · rintro v2 ⟨⟨hv1, hv9⟩, hv2⟩
    rw [mapDigit_assembleBlocks_some tn n0 n1 n2 v2 hv1 hv9] at hv2
    injection hv2 with hv2
    have hbv : bandFun tn n0 n1 n2 (v2 - 1) = e - 1 := by omega
    have := hku (v2 - 1) ⟨by omega, hbv⟩
    omega

lemma scrambleBoardWith_solution (tr r0 r1 r2 tc c0 c1 c2 : List Nat)
    (numbers : List Nat) (cells : List SudokuCell) (h81 : cells.length = 81)
    (htr : perm3 tr) (hr0 : perm3 r0) (hr1 : perm3 r1) (hr2 : perm3 r2)
    (htc : perm3 tc) (hc0 : perm3 c0) (hc1 : perm3 c1) (hc2 : perm3 c2)
    (res : ScrambleResult)
    (hres : scrambleBoardWith (assembleBlocks tr r0 r1 r2)
      (assembleBlocks tc c0 c1 c2) numbers cells = some res) :
    res.cells.length = 81 ∧
    ∀ y x, y < 9 → x < 9 →
      solFun res.cells y x =
        mapDigit (solFun cells (bandFun tr r0 r1 r2 y) (bandFun tc c0 c1 c2 x))
          numbers := by
  have hrd : ∀ y, y < 9 → (assembleBlocks tr r0 r1 r2).getD y y < 9 := by
    intro y hy
    rw [assembleBlocks_getD tr r0 r1 r2 y y hy]
    exact bandFun_lt tr r0 r1 r2 htr hr0 hr1 hr2 y hy
  have hcd : ∀ x, x < 9 → (assembleBlocks tc c0 c1 c2).getD x x < 9 := by
    intro x hx
    rw [assembleBlocks_getD tc c0 c1 c2 x x hx]
    exact bandFun_lt tc c0 c1 c2 htc hc0 hc1 hc2 x hx
  obtain ⟨res2, hres2, hlen, hspec⟩ :=
    scrambleBoardWith_spec (assembleBlocks tr r0 r1 r2) (assembleBlocks tc c0 c1 c2)
      numbers cells h81 hrd hcd
  rw [hres2] at hres
  injection hres with hres
  subst hres
  refine ⟨hlen, ?_⟩
  intro y x hy hx
  have hi : y * 9 + x < 81 := by omega
  obtain ⟨existing, hex, hcell⟩ := hspec (y * 9 + x) hi
  rw [rowOf_mul_add y x hx, columnOf_mul_add y x hx] at hex
  unfold solFun solAt
  rw [hcell, Option.some_bind]
  rw [assembleBlocks_getD tr r0 r1 r2 y y hy,
    assembleBlocks_getD tc c0 c1 c2 x x hx] at hex
  rw [hex, Option.some_bind]

theorem scrambleBoardWith_preserves_valid
    (cells : List SudokuCell) (h81 : cells.length = 81)
    (tr r0 r1 r2 tc c0 c1 c2 tn n0 n1 n2 : List Nat)
    (htr : perm3 tr) (hr0 : perm3 r0) (hr1 : perm3 r1) (hr2 : perm3 r2)
    (htc : perm3 tc) (hc0 : perm3 c0) (hc1 : perm3 c1) (hc2 : perm3 c2)
    (htn : perm3 tn) (hn0 : perm3 n0) (hn1 : perm3 n1) (hn2 : perm3 n2)
    (res : ScrambleResult)
    (hres : scrambleBoardWith (assembleBlocks tr r0 r1 r2)
      (assembleBlocks tc c0 c1 c2) (assembleBlocks tn n0 n1 n2) cells = some res)
    (hvalid : ValidSolution (solFun cells)) :
    ValidSolution (solFun res.cells) := by
  obtain ⟨hlen, hcell⟩ := scrambleBoardWith_solution tr r0 r1 r2 tc c0 c1 c2 _
    cells h81 htr hr0 hr1 hr2 htc hc0 hc1 hc2 res hres
  obtain ⟨hrowV, hcolV, hblockV⟩ := hvalid
  have hrowU : ∀ d, 1 ≤ d → d ≤ 9 → ∀ y, y < 9 →
      ∃! x, x < 9 ∧ solFun cells y x = some d := by
    intro d h1 h9 y hy
    exact (card_filter_eq_one_iff 9 _).mp
      (hrowV d (Finset.mem_Icc.mpr ⟨h1, h9⟩) y (Finset.mem_range.mpr hy))
  have hcolU : ∀ d, 1 ≤ d → d ≤ 9 → ∀ x, x < 9 →
      ∃! y, y < 9 ∧ solFun cells y x = some d := by
    intro d h1 h9 x hx
    exact (card_filter_eq_one_iff 9 _).mp
      (hcolV d (Finset.mem_Icc.mpr ⟨h1, h9⟩) x (Finset.mem_range.mpr hx))
  have hblockU : ∀ d, 1 ≤ d → d ≤ 9 → ∀ b, b < 9 →
      ∃! p, p < 9 ∧ solFun cells (b / 3 * 3 + p / 3) (b % 3 * 3 + p % 3) = some d := by
    intro d h1 h9 b hb
    exact (card_filter_eq_one_iff 9 _).mp
      (hblockV d (Finset.mem_Icc.mpr ⟨h1, h9⟩) b (Finset.mem_range.mpr hb))
  have htotal : ∀ y x, y < 9 → x < 9 →
      ∃ d, 1 ≤ d ∧ d ≤ 9 ∧ solFun cells y x = some d := by
    intro y x hy hx
    exact validRow_total (solFun cells) y (fun d h1 h9 => hrowU d h1 h9 y hy) x hx
  have hρ : ∀ y, y < 9 → bandFun tr r0 r1 r2 y < 9 :=
    fun y hy => bandFun_lt tr r0 r1 r2 htr hr0 hr1 hr2 y hy
  have hγ : ∀ x, x < 9 → bandFun tc c0 c1 c2 x < 9 :=
    fun x hx => bandFun_lt tc c0 c1 c2 htc hc0 hc1 hc2 x hx
  refine ⟨?_, ?_, ?_⟩
  · -- every row of the scrambled board has each digit exactly once
    intro d hd y hy
    rw [Finset.mem_Icc] at hd
    rw [Finset.mem_range] at hy
    rw [card_filter_eq_one_iff]
    obtain ⟨v, ⟨⟨hv1, hv9⟩, hσv⟩, hσu⟩ :=
      mapDigit_existsUnique tn n0 n1 n2 htn hn0 hn1 hn2 d hd.1 hd.2
    obtain ⟨x', ⟨hx'9, hx'v⟩, hx'u⟩ := hrowU v hv1 hv9 (bandFun tr r0 r1 r2 y) (hρ y hy)
    obtain ⟨x, ⟨hx9, hxv⟩, hxu⟩ :=
      bandFun_existsUnique tc c0 c1 c2 htc hc0 hc1 hc2 x' hx'9
    refine ⟨x, ⟨hx9, ?_⟩, ?_⟩
    · rw [hcell y x hy hx9, hxv, hx'v, hσv]
    · rintro x2 ⟨hx29, hx2v⟩
      rw [hcell y x2 hy hx29] at hx2v
      obtain ⟨w, hw1, hw9, hwv⟩ := htotal _ _ (hρ y hy) (hγ x2 hx29)
      rw [hwv] at hx2v
      have hwveq : w = v := hσu w ⟨⟨hw1, hw9⟩, hx2v⟩
      rw [hwveq] at hwv
      have hγeq : bandFun tc c0 c1 c2 x2 = x' := hx'u _ ⟨hγ x2 hx29, hwv⟩
      exact hxu x2 ⟨hx29, hγeq⟩
  · -- every column of the scrambled board has each digit exactly once
    intro d hd x hx
    rw [Finset.mem_Icc] at hd
    rw [Finset.mem_range] at hx
    rw [card_filter_eq_one_iff]
    obtain ⟨v, ⟨⟨hv1, hv9⟩, hσv⟩, hσu⟩ :=
      mapDigit_existsUnique tn n0 n1 n2 htn hn0 hn1 hn2 d hd.1 hd.2
    obtain ⟨y', ⟨hy'9, hy'v⟩, hy'u⟩ := hcolU v hv1 hv9 (bandFun tc c0 c1 c2 x) (hγ x hx)
    obtain ⟨y, ⟨hy9, hyv⟩, hyu⟩ :=
      bandFun_existsUnique tr r0 r1 r2 htr hr0 hr1 hr2 y' hy'9
    refine ⟨y, ⟨hy9, ?_⟩, ?_⟩
    · rw [hcell y x hy9 hx, hyv, hy'v, hσv]
    · rintro y2 ⟨hy29, hy2v⟩
      rw [hcell y2 x hy29 hx] at hy2v
      obtain ⟨w, hw1, hw9, hwv⟩ := htotal _ _ (hρ y2 hy29) (hγ x hx)
      rw [hwv] at hy2v
      have hwveq : w = v := hσu w ⟨⟨hw1, hw9⟩, hy2v⟩
      rw [hwveq] at hwv
      have hρeq : bandFun tr r0 r1 r2 y2 = y' := hy'u _ ⟨hρ y2 hy29, hwv⟩
      exact hyu y2 ⟨hy29, hρeq⟩
  · -- every block of the scrambled board has each digit exactly once
    intro d hd b hb
    rw [Finset.mem_Icc] at hd
    rw [Finset.mem_range] at hb
    rw [card_filter_eq_one_iff]
    obtain ⟨v, ⟨⟨hv1, hv9⟩, hσv⟩, hσu⟩ :=
      mapDigit_existsUnique tn n0 n1 n2 htn hn0 hn1 hn2 d hd.1 hd.2
    have hbr : b / 3 < 3 := by omega
    have hbc : b % 3 < 3 := by omega
    have htrb : tr.getD (b / 3) 0 < 3 := perm3_getD_lt tr htr _ hbr
    have htcb : tc.getD (b % 3) 0 < 3 := perm3_getD_lt tc htc _ hbc
    have hb'9 : tr.getD (b / 3) 0 * 3 + tc.getD (b % 3) 0 < 9 := by omega
    obtain ⟨p', ⟨hp'9, hp'v⟩, hp'u⟩ := hblockU v hv1 hv9 _ hb'9
    have hrl : perm3 ([r0, r1, r2].getD (b / 3) []) :=
      blist_perm3 r0 r1 r2 hr0 hr1 hr2 _ hbr
    have hclp : perm3 ([c0, c1, c2].getD (b % 3) []) :=
      blist_perm3 c0 c1 c2 hc0 hc1 hc2 _ hbc
    obtain ⟨p, ⟨hp9, hpv⟩, hpu⟩ :=
      bandFun_existsUnique ([r0, r1, r2].getD (b / 3) []) ([c0, c1, c2].getD (b % 3) [])
        ([c0, c1, c2].getD (b % 3) []) ([c0, c1, c2].getD (b % 3) [])
        hrl hclp hclp hclp p' hp'9
    have hbf : ∀ q, q < 9 →
        bandFun ([r0, r1, r2].getD (b / 3) []) ([c0, c1, c2].getD (b % 3) [])
          ([c0, c1, c2].getD (b % 3) []) ([c0, c1, c2].getD (b % 3) []) q =
        ([r0, r1, r2].getD (b / 3) []).getD (q / 3) 0 * 3 +
          ([c0, c1, c2].getD (b % 3) []).getD (q % 3) 0 := by
      intro q hq
      unfold bandFun
      have h3 : q / 3 = 0 ∨ q / 3 = 1 ∨ q / 3 = 2 := by omega
      rcases h3 with h | h | h <;> rw [h] <;> simp [List.getD]
    -- the new block cell (b, q) is the digit-mapped old block cell
    have hkey : ∀ q, q < 9 →
        solFun res.cells (b / 3 * 3 + q / 3) (b % 3 * 3 + q % 3) =
          mapDigit (solFun cells
            ((tr.getD (b / 3) 0 * 3 + tc.getD (b % 3) 0) / 3 * 3 +
              (bandFun ([r0, r1, r2].getD (b / 3) []) ([c0, c1, c2].getD (b % 3) [])
                ([c0, c1, c2].getD (b % 3) []) ([c0, c1, c2].getD (b % 3) []) q) / 3)
            ((tr.getD (b / 3) 0 * 3 + tc.getD (b % 3) 0) % 3 * 3 +
              (bandFun ([r0, r1, r2].getD (b / 3) []) ([c0, c1, c2].getD (b % 3) [])
                ([c0, c1, c2].getD (b % 3) []) ([c0, c1, c2].getD (b % 3) []) q) % 3))
            (assembleBlocks tn n0 n1 n2) := by
      intro q hq
      have hq3 : q / 3 < 3 := by omega
      have hqm : q % 3 < 3 := by omega
      have hy9 : b / 3 * 3 + q / 3 < 9 := by omega
      have hx9 : b % 3 * 3 + q % 3 < 9 := by omega
      rw [hcell _ _ hy9 hx9,
        bandFun_decomp tr r0 r1 r2 (b / 3) (q / 3) hq3,
        bandFun_decomp tc c0 c1 c2 (b % 3) (q % 3) hqm,
        hbf q hq]
      have hrlb : ([r0, r1, r2].getD (b / 3) []).getD (q / 3) 0 < 3 :=
        perm3_getD_lt _ hrl _ hq3
      have hclb : ([c0, c1, c2].getD (b % 3) []).getD (q % 3) 0 < 3 :=
        perm3_getD_lt _ hclp _ hqm
      congr 2 <;> omega
    refine ⟨p, ⟨hp9, ?_⟩, ?_⟩
    · rw [hkey p hp9, hpv, hp'v, hσv]
    · rintro p2 ⟨hp29, hp2v⟩
      rw [hkey p2 hp29] at hp2v
      have hbq : bandFun ([r0, r1, r2].getD (b / 3) []) ([c0, c1, c2].getD (b % 3) [])
          ([c0, c1, c2].getD (b % 3) []) ([c0, c1, c2].getD (b % 3) []) p2 < 9 :=
        bandFun_lt _ _ _ _ hrl hclp hclp hclp p2 hp29
      obtain ⟨w, hw1, hw9, hwv⟩ := htotal
        ((tr.getD (b / 3) 0 * 3 + tc.getD (b % 3) 0) / 3 * 3 +
          (bandFun ([r0, r1, r2].getD (b / 3) []) ([c0, c1, c2].getD (b % 3) [])
            ([c0, c1, c2].getD (b % 3) []) ([c0, c1, c2].getD (b % 3) []) p2) / 3)
        ((tr.getD (b / 3) 0 * 3 + tc.getD (b % 3) 0) % 3 * 3 +
          (bandFun ([r0, r1, r2].getD (b / 3) []) ([c0, c1, c2].getD (b % 3) [])
            ([c0, c1, c2].getD (b % 3) []) ([c0, c1, c2].getD (b % 3) []) p2) % 3)
        (by omega) (by omega)
      rw [hwv] at hp2v
      have hwveq : w = v := hσu w ⟨⟨hw1, hw9⟩, hp2v⟩
      rw [hwveq] at hwv
      have hqeq : bandFun ([r0, r1, r2].getD (b / 3) []) ([c0, c1, c2].getD (b % 3) [])
          ([c0, c1, c2].getD (b % 3) []) ([c0, c1, c2].getD (b % 3) []) p2 = p' :=
        hp'u _ ⟨hbq, hwv⟩
      exact hpu p2 ⟨hp29, hqeq⟩

/-- **C1.**  Scrambling preserves validity: for every 81-cell board whose
solution values form a valid Sudoku solution (each row, column and block
holds each of 1–9 exactly once), the cells produced by `scrambleBoard`
with the `Scrambler` (any seeds, either symmetry mode) again form a
valid Sudoku solution. -/
theorem scramble_preserves_valid_solution
    (cells : List SudokuCell) (h81 : cells.length = 81)
    (seeds : Nat × Nat × Nat) (symmetrical : Bool) (res : ScrambleResult)
    (hres : scrambleBoard Scrambler cells symmetrical seeds = some res)
    (hvalid : ValidSolution (solFun cells)) :
    ValidSolution (solFun res.cells) := by
  obtain ⟨tr, r0, r1, r2, htr, hr0, hr1, hr2, hreq, _⟩ :=
    scramble9_struct symmetrical seeds.1
  obtain ⟨tc, c0, c1, c2, htc, hc0, hc1, hc2, hceq, _⟩ :=
    scramble9_struct symmetrical seeds.2.1
  obtain ⟨tn, n0, n1, n2, htn, hn0, hn1, hn2, hneq, _⟩ :=
    scramble9_struct symmetrical seeds.2.2
  have hsb : scrambleBoard Scrambler cells symmetrical seeds =
      scrambleBoardWith (assembleBlocks tr r0 r1 r2) (assembleBlocks tc c0 c1 c2)
        (assembleBlocks tn n0 n1 n2) cells := by
    unfold scrambleBoard Scrambler
    rw [← hreq, ← hceq, ← hneq]
  rw [hsb] at hres
  exact scrambleBoardWith_preserves_valid cells h81 tr r0 r1 r2 tc c0 c1 c2
    tn n0 n1 n2 htr hr0 hr1 hr2 htc hc0 hc1 hc2 htn hn0 hn1 hn2 res hres hvalid

theorem scramble_preserves_valid_solution_witness :
    sampleCells.length = 81 ∧
    scrambleBoard Scrambler sampleCells false (0, 1, 2) = some sampleScrambledResult ∧
    ValidSolution (solFun sampleCells) ∧
    ValidSolution (solFun sampleScrambledResult.cells) :=
  ⟨by decide, by rfl,
   by decide,
   scramble_preserves_valid_solution sampleCells (by decide) (0, 1, 2) false
     sampleScrambledResult (by rfl) (by decide)⟩

/-- **C4 (amended).**  For every seed, `Scrambler.scramble9` returns a
permutation of `{0, ..., 8}` with the band structure
`result[i*3+j] = t[i]*3 + blocks[i][j]` for 3-permutations `t` and
`blocks[0..2]`; in symmetrical mode it is the THIRD band's block
permutation that mirrors the first one (`b2 = b0`), not the middle
band's as the specification claims. -/
theorem scramble9_is_band_permutation (symmetrical : Bool) (seed : Nat) :
    (scramble9 symmetrical seed).length = 9 ∧
    (∀ m, m < 9 → ∃! k, k < 9 ∧ (scramble9 symmetrical seed).getD k 0 = m) ∧
    (∃ t b0 b1 b2, perm3 t ∧ perm3 b0 ∧ perm3 b1 ∧ perm3 b2 ∧
      (∀ i j, i < 3 → j < 3 →
        (scramble9 symmetrical seed).getD (i * 3 + j) 0 =
          t.getD i 0 * 3 + ([b0, b1, b2].getD i []).getD j 0) ∧
      (symmetrical = true → b2 = b0)) ∧
    (symmetrical = true → ∀ j, j < 3 →
      (scramble9 symmetrical seed).getD (6 + j) 0 % 3 =
        (scramble9 symmetrical seed).getD j 0 % 3) := by
  obtain ⟨t, b0, b1, b2, ht, hb0, hb1, hb2, heq, hsym⟩ :=
    scramble9_struct symmetrical seed
  refine ⟨by rw [heq]; exact assembleBlocks_length t b0 b1 b2, ?_, ?_, ?_⟩
  · intro m hm
    obtain ⟨k, ⟨hk9, hkv⟩, hku⟩ :=
      bandFun_existsUnique t b0 b1 b2 ht hb0 hb1 hb2 m hm
    refine ⟨k, ⟨hk9, ?_⟩, ?_⟩
    · rw [heq, assembleBlocks_getD t b0 b1 b2 k 0 hk9]
      exact hkv
    · rintro k2 ⟨hk29, hv2⟩
      rw [heq, assembleBlocks_getD t b0 b1 b2 k2 0 hk29] at hv2
      exact hku k2 ⟨hk29, hv2⟩
  · refine ⟨t, b0, b1, b2, ht, hb0, hb1, hb2, ?_, hsym⟩
    intro i j hi hj
    have hk9 : i * 3 + j < 9 := by omega
    rw [heq, assembleBlocks_getD t b0 b1 b2 _ 0 hk9,
      bandFun_decomp t b0 b1 b2 i j hj]
  · intro hs j hj
    have e1 : (scramble9 symmetrical seed).getD (6 + j) 0 =
        t.getD 2 0 * 3 + b2.getD j 0 := by
      rw [heq, show (6 : Nat) + j = 2 * 3 + j by omega,
        assembleBlocks_getD t b0 b1 b2 _ 0 (by omega),
        bandFun_decomp t b0 b1 b2 2 j hj]
      rfl
    have e2 : (scramble9 symmetrical seed).getD j 0 =
        t.getD 0 0 * 3 + b0.getD j 0 := by
      rw [heq, assembleBlocks_getD t b0 b1 b2 j 0 (by omega)]
      unfold bandFun
      rw [show j / 3 = 0 by omega, show j % 3 = j by omega]
      rfl
    have hb0j : b0.getD j 0 < 3 := perm3_getD_lt b0 hb0 j hj
    rw [e1, e2, hsym hs]
    omega

/-- **C4** counterexample: at seed 0 in symmetrical mode the middle band
does not mirror the first band. -/
theorem scramble9_middle_band_not_mirrored :
    (scramble9 true 0).getD (3 + 0) 0 % 3 ≠ (scramble9 true 0).getD 0 0 % 3 := by
  decide

theorem scramble9_is_band_permutation_witness :
    (scramble9 true 0).getD (6 + 0) 0 % 3 = (scramble9 true 0).getD 0 0 % 3 :=
  (scramble9_is_band_permutation true 0).2.2.2 rfl 0 (by decide)

lemma string_ext (s t : String) (h : s.data = t.data) : s = t := by
  cases s
  cases t
  exact congrArg String.mk h

lemma foldl_append_data (l : List String) (init : String) :
    (List.foldl (fun r s => r ++ s) init l).data =
      init.data ++ (l.map (fun s => s.data)).flatten := by
  induction l generalizing init with
  | nil => simp
  | cons a l ih =>
    rw [List.foldl_cons, ih (init ++ a)]
    simp [String.data_append]

lemma join_data (l : List String) :
    (String.join l).data = (l.map (fun s => s.data)).flatten := by
  unfold String.join
  rw [foldl_append_data]
  rfl

example (s : String) : s.length = s.data.length := rfl

lemma map_range_getD {α β : Type} (l : List α) (d : α) (f : α → β) :
    (List.range l.length).map (fun i => f (l.getD i d)) = l.map f := by
  apply List.ext_getElem
  · simp
  · intro i h1 h2
    simp only [List.getElem_map, List.getElem_range]
    rw [List.getD_eq_getElem l d (by simpa using h2)]

lemma digit_piece_singleton (c : Char) (h48 : 48 ≤ c.toNat) (h57 : c.toNat ≤ 57) :
    ((parseDigit c).map toString).getD "0" = String.singleton c := by
  have hc : c = Char.ofNat c.toNat := (Char.ofNat_toNat c).symm
  have hcases : c.toNat = 48 ∨ c.toNat = 49 ∨ c.toNat = 50 ∨ c.toNat = 51 ∨
      c.toNat = 52 ∨ c.toNat = 53 ∨ c.toNat = 54 ∨ c.toNat = 55 ∨
      c.toNat = 56 ∨ c.toNat = 57 := by omega
  rcases hcases with h | h | h | h | h | h | h | h | h | h <;> rw [h] at hc <;>
    subst hc <;> decide

lemma parsePuzzleString_none_eq (s : String) (h : s.length = 81) :
    parsePuzzleString s none = some ((List.range 81).map (fun index =>
      ({ index := index, solution := none
         given := parseDigit (s.data.getD index ' ')
         input := none, pencilmarks := none } : SudokuCell))) := by
  unfold parsePuzzleString
  rw [if_neg (by omega)]
  rw [show (Option.elim (none : Option String) false
    (fun t => !(t == "") && !(t.length == 81))) = false from rfl]
  rw [if_neg (by simp)]
  apply mapM_option_eq_map
  intro i hi
  rw [List.mem_range] at hi
  have hlt : i < s.data.length := by
    have : s.length = s.data.length := rfl
    omega
  rw [List.getElem?_eq_getElem hlt, Option.map_some']
  rw [List.getD_eq_getElem s.data ' ' hlt]

/-- **C6 (amended).**  The parse-serialize round trip is the identity on
81-character strings of ASCII digits: parsing succeeds and
`cellsToPuzzleString` returns the original string.  (On strings
containing `.` the round trip yields `0` in its place, so the claim
fails on the full alphabet; see the counterexample.) -/
theorem puzzle_roundtrip_digits (s : String) (hlen : s.length = 81)
    (hchars : ∀ c ∈ s.data, 48 ≤ c.toNat ∧ c.toNat ≤ 57) :
    ∃ cells, parsePuzzleString s none = some cells ∧
      cellsToPuzzleString cells = s := by
  refine ⟨_, parsePuzzleString_none_eq s hlen, ?_⟩
  unfold cellsToPuzzleString
  apply string_ext
  rw [join_data, List.map_map, List.map_map]
  have hdl : s.data.length = 81 := by
    have : s.length = s.data.length := rfl
    omega
  have hrw : (List.range 81).map (((fun t => t.data) ∘ (fun cell =>
      (cell.given.map toString).getD "0")) ∘ (fun index =>
      ({ index := index, solution := none
         given := parseDigit (s.data.getD index ' ')
         input := none, pencilmarks := none } : SudokuCell))) =
      (List.range s.data.length).map (fun i =>
        (((parseDigit (s.data.getD i ' ')).map toString).getD "0").data) := by
    rw [hdl]
    rfl
  rw [hrw, map_range_getD s.data ' '
    (fun c => (((parseDigit c).map toString).getD "0").data)]
  have hsingle : ∀ c ∈ s.data,
      (((parseDigit c).map toString).getD "0").data = [c] := by
    intro c hc
    obtain ⟨h48, h57⟩ := hchars c hc
    rw [digit_piece_singleton c h48 h57]
    rfl
  calc (s.data.map (fun c => (((parseDigit c).map toString).getD "0").data)).flatten
      = (s.data.map (fun c => [c])).flatten := by
        congr 1
        exact List.map_congr_left hsingle
    _ = s.data := by
        induction s.data with
        | nil => rfl
        | cons a l ih => simp [ih]

lemma charDigit_le (c : Char) (v : Nat) (h : charDigit c = some v) : v ≤ 9 := by
  unfold charDigit at h
  by_cases hc : 48 ≤ c.toNat ∧ c.toNat ≤ 57
  · rw [if_pos hc] at h
    injection h with h
    omega
  · rw [if_neg hc] at h
    exact Option.noConfusion h

lemma parseBoardChar_eq_none_iff (c : Char) :
    parseBoardChar c = none ↔ ¬boardChar c := by
  unfold parseBoardChar boardChar
  by_cases hdot : c = '.'
  · rw [if_pos hdot]
    exact iff_of_false (by simp) (fun hcon => hcon (Or.inl hdot))
  · rw [if_neg hdot]
    cases hcd : charDigit c with
    | none =>
      unfold charDigit at hcd
      refine iff_of_true rfl ?_
      rintro (hc | hc)
      · exact hdot hc
      · rw [if_pos hc] at hcd
        exact Option.noConfusion hcd
    | some v =>
      show (if v > 9 then none else some v) = none ↔ _
      rw [if_neg (by have := charDigit_le c v hcd; omega)]
      refine iff_of_false (by simp) ?_
      intro hcon
      apply hcon
      right
      unfold charDigit at hcd
      by_cases hc : 48 ≤ c.toNat ∧ c.toNat ≤ 57
      · exact hc
      · rw [if_neg hc] at hcd
        exact Option.noConfusion hcd

lemma char_toNat_48_eq (c : Char) (h : c.toNat = 48) : c = '0' := by
  have hc : c = Char.ofNat c.toNat := (Char.ofNat_toNat c).symm
  rw [h] at hc
  exact hc

/-- **C5 (amended).**  `parseBoardString` fails exactly on strings whose
length is not 81 or that contain a character outside `0`–`9` and `.`;
`parsePuzzleString`, by contrast, fails exactly on length ≠ 81 and
tolerates arbitrary characters.  On well-formed 81-character board
strings parsing succeeds with 81 cells whose `given` digits match the
string, `0` and `.` both parsing to empty. -/
theorem board_parsing_failure_characterization :
    (∀ s : String, parseBoardString s = none ↔
      (s.length ≠ 81 ∨ ∃ c ∈ s.data, ¬boardChar c)) ∧
    (∀ s : String, parsePuzzleString s none = none ↔ s.length ≠ 81) ∧
    (∀ s : String, s.length = 81 → (∀ c ∈ s.data, boardChar c) →
      ∃ cells, parsePuzzleString s none = some cells ∧ cells.length = 81 ∧
        ∀ i, i < 81 →
          (cells[i]?).map (fun cell => cell.given) = (s.data[i]?).map parseDigit) ∧
    (∀ c : Char, boardChar c →
      parseDigit c = if c = '0' ∨ c = '.' then none else some (c.toNat - 48)) := by
  have hlen_data : ∀ s : String, s.length = s.data.length := fun s => rfl
  refine ⟨?_, ?_, ?_, ?_⟩
  · intro s
    by_cases hl : s.length = 81
    · unfold parseBoardString
      rw [if_neg (by omega)]
      rw [mapM_option_eq_none_iff]
      have hinner : ∀ row, row ∈ List.range 9 →
          (((List.range 9).mapM (fun col =>
            match s.data[row * 9 + col]? with
            | none => none
            | some c => parseBoardChar c)) = none ↔
          ∃ col ∈ List.range 9, ¬boardChar (s.data.getD (row * 9 + col) ' ')) := by
        intro row hrow
        rw [List.mem_range] at hrow
        rw [mapM_option_eq_none_iff]
        apply exists_congr
        intro col
        apply and_congr_right
        intro hcol
        rw [List.mem_range] at hcol
        have hidx : row * 9 + col < s.data.length := by
          have := hlen_data s
          omega
        rw [List.getElem?_eq_getElem hidx]
        rw [List.getD_eq_getElem s.data ' ' hidx]
        exact parseBoardChar_eq_none_iff _
      constructor
      · rintro ⟨row, hrow, hnone⟩
        right
        obtain ⟨col, hcol, hbad⟩ := (hinner row hrow).mp hnone
        rw [List.mem_range] at hrow hcol
        have hidx : row * 9 + col < s.data.length := by
          have := hlen_data s
          omega
        refine ⟨s.data.getD (row * 9 + col) ' ', ?_, hbad⟩
        rw [List.getD_eq_getElem s.data ' ' hidx]
        exact List.getElem_mem hidx
      · rintro (hbad | ⟨c, hc, hbad⟩)
        · omega
        · obtain ⟨i, hi, hieq⟩ := List.getElem_of_mem hc
          have hi81 : i < 81 := by
            have := hlen_data s
            omega
          refine ⟨i / 9, List.mem_range.mpr (by omega), ?_⟩
          apply (hinner (i / 9) (List.mem_range.mpr (by omega))).mpr
          refine ⟨i % 9, List.mem_range.mpr (by omega), ?_⟩
          rw [show i / 9 * 9 + i % 9 = i by omega]
          rw [List.getD_eq_getElem s.data ' ' (by omega), hieq]
          exact hbad
    · unfold parseBoardString
      rw [if_pos (by omega)]
      exact iff_of_true rfl (Or.inl hl)
  · intro s
    by_cases hl : s.length = 81
    · rw [parsePuzzleString_none_eq s hl]
      exact iff_of_false (by simp) (by omega)
    · unfold parsePuzzleString
      rw [if_pos (by omega)]
      exact iff_of_true rfl hl
  · intro s hl hchars
    refine ⟨_, parsePuzzleString_none_eq s hl, by simp, ?_⟩
    intro i hi
    have hdi : i < s.data.length := by
      have := hlen_data s
      omega
    have hri : (List.range 81)[i]? = some i := by simp [hi]
    rw [List.getElem?_map, hri, Option.map_some', Option.map_some',
      List.getElem?_eq_getElem hdi, Option.map_some',
      List.getD_eq_getElem s.data ' ' hdi]
  · intro c hbc
    by_cases h0 : c = '0' ∨ c = '.'
    · rw [if_pos h0]
      unfold parseDigit
      rw [if_pos h0]
    · rw [if_neg h0]
      push_neg at h0
      obtain ⟨h00, hdot⟩ := h0
      have hrange : 48 ≤ c.toNat ∧ c.toNat ≤ 57 := by
        rcases hbc with h | h
        · exact absurd h hdot
        · exact h
      have h48 : c.toNat ≠ 48 := by
        intro hcon
        exact h00 (char_toNat_48_eq c hcon)
      unfold parseDigit
      rw [if_neg (by tauto)]
      unfold charDigit
      rw [if_pos hrange]
      show (if 1 ≤ c.toNat - 48 ∧ c.toNat - 48 ≤ 9
        then some (c.toNat - 48) else none) = some (c.toNat - 48)
      rw [if_pos (by omega)]

/-- **C5** counterexample: `parsePuzzleString` accepts an 81-character
string of `a`s, a character outside the claimed alphabet. -/
theorem cell_parser_accepts_invalid_characters :
    parsePuzzleString (String.mk (List.replicate 81 'a')) none ≠ none ∧
    ¬boardChar 'a' := by
  constructor
  · decide
  · decide

theorem board_parsing_failure_characterization_witness :
    parseBoardString (String.mk (List.replicate 80 '1')) = none ∧
    (parsePuzzleString samplePuzzle none).map List.length = some 81 ∧
    parseDigit '5' = some 5 := by
  refine ⟨(board_parsing_failure_characterization.1 _).mpr (Or.inl (by decide)),
    ?_, ?_⟩
  · obtain ⟨cells, h1, h2, h3⟩ :=
      board_parsing_failure_characterization.2.2.1 samplePuzzle (by decide) (by decide)
    rw [h1, Option.map_some', h2]
  · rw [board_parsing_failure_characterization.2.2.2 '5' (Or.inr (by decide))]
    decide

/-- **C6** counterexample: a string of 81 dots round-trips to a string of
81 zeros, not to itself. -/
theorem puzzle_roundtrip_fails_on_dot_string :
    (parsePuzzleString (String.mk (List.replicate 81 '.')) none).map
        cellsToPuzzleString = some (String.mk (List.replicate 81 '0')) ∧
    String.mk (List.replicate 81 '0') ≠ String.mk (List.replicate 81 '.') := by
  constructor
  · decide
  · decide

theorem puzzle_roundtrip_digits_witness :
    (parsePuzzleString sampleSolution none).map cellsToPuzzleString =
      some sampleSolution := by
  obtain ⟨cells, h1, h2⟩ := puzzle_roundtrip_digits sampleSolution (by decide) (by decide)
  rw [h1, Option.map_some', h2]

lemma getLast?_append_singleton (h : List SudokuPlay) (q : SudokuPlay) :
    (h ++ [q]).getLast? = some q := by
  rw [List.getLast?_concat]

lemma dropLast_append_singleton (h : List SudokuPlay) (q : SudokuPlay) :
    (h ++ [q]).dropLast = h := by
  rw [List.dropLast_concat]

/-- **C10.**  `UNDO` on a state with non-empty history restores the popped
snapshot wholesale — board cells, selection index and the play-level
settings all revert together — and `TOGGLE_PENCIL_MODE` /
`SET_PENCIL_MODE` push no history snapshot, so a pencil-mode change made
after the last push is silently reverted by the next `UNDO`:
toggle-then-undo equals undo. -/
theorem undo_restores_snapshot_wholesale (seeds : Nat × Nat × Nat)
    (s : SudokuState) (p q : SudokuPlay) (h : List SudokuPlay)
    (hplay : s.play = some p) (hhist : s.history = h ++ [q]) :
    sudokuReducer seeds s SudokuAction.UNDO =
      some { s with history := h, play := some q } ∧
    (sudokuReducer seeds s SudokuAction.TOGGLE_PENCIL_MODE).map
      (fun s1 => s1.history) = some s.history ∧
    (∀ b, (sudokuReducer seeds s (SudokuAction.SET_PENCIL_MODE b)).map
      (fun s1 => s1.history) = some s.history) ∧
    (sudokuReducer seeds s SudokuAction.TOGGLE_PENCIL_MODE).bind
      (fun s1 => sudokuReducer seeds s1 SudokuAction.UNDO) =
      sudokuReducer seeds s SudokuAction.UNDO ∧
    (∀ b, (sudokuReducer seeds s (SudokuAction.SET_PENCIL_MODE b)).bind
      (fun s1 => sudokuReducer seeds s1 SudokuAction.UNDO) =
      sudokuReducer seeds s SudokuAction.UNDO) := by
  have hundo : sudokuReducer seeds s SudokuAction.UNDO =
      some { s with history := h, play := some q } := by
    unfold sudokuReducer
    rw [hhist, getLast?_append_singleton, dropLast_append_singleton]
  have htoggle : sudokuReducer seeds s SudokuAction.TOGGLE_PENCIL_MODE =
      some { s with play := some { p with settings :=
        { p.settings with pencilmarking := !p.settings.pencilmarking } } } := by
    unfold sudokuReducer
    rw [hplay]
  have hset : ∀ b, sudokuReducer seeds s (SudokuAction.SET_PENCIL_MODE b) =
      some { s with play := some { p with settings :=
        { p.settings with pencilmarking := b } } } := by
    intro b
    unfold sudokuReducer
    rw [hplay]
  refine ⟨hundo, by rw [htoggle]; rfl, fun b => by rw [hset b]; rfl, ?_, ?_⟩
  · rw [htoggle, Option.some_bind, hundo]
    unfold sudokuReducer
    rw [show ({ s with play := some { p with settings :=
      { p.settings with pencilmarking := !p.settings.pencilmarking } } } :
        SudokuState).history = h ++ [q] from hhist,
      getLast?_append_singleton, dropLast_append_singleton]
  · intro b
    rw [hset b, Option.some_bind, hundo]
    unfold sudokuReducer
    rw [show ({ s with play := some { p with settings :=
      { p.settings with pencilmarking := b } } } :
        SudokuState).history = h ++ [q] from hhist,
      getLast?_append_singleton, dropLast_append_singleton]

theorem undo_restores_snapshot_wholesale_witness :
    sudokuReducer (0, 0, 0)
      { play := some default, originalPuzzle := "", originalSolution := ""
        source := PlayingSource.LEVEL, levelUuid := none, boardUuid := none
        history := [default], appSettings := DEFAULT_APP_SETTINGS
        digitMapping := [], reverseDigitMapping := [] }
      SudokuAction.UNDO =
    some { play := some default, originalPuzzle := "", originalSolution := ""
           source := PlayingSource.LEVEL, levelUuid := none, boardUuid := none
           history := [], appSettings := DEFAULT_APP_SETTINGS
           digitMapping := [], reverseDigitMapping := [] } :=
  (undo_restores_snapshot_wholesale (0, 0, 0) _ default default [] rfl rfl).1

/-- **C3 (amended).**  On a completed board, `SELECT_CELL`, `INPUT`,
`ERASE` and `AUTO_PENCILMARKS` are exact no-ops and `DESELECT_CELL`
merely clears the selection.  The claim that `LOAD_BOARD` is the only
action that can leave the completed state is false: `UNDO` also leaves
it, see the counterexample. -/
theorem completed_blocks_selection_and_input (seeds : Nat × Nat × Nat)
    (s : SudokuState) (p : SudokuPlay)
    (hplay : s.play = some p) (hc : p.board.completed = true) :
    (∀ i, sudokuReducer seeds s (SudokuAction.SELECT_CELL i) = some s) ∧
    (∀ v, sudokuReducer seeds s (SudokuAction.INPUT v) = some s) ∧
    sudokuReducer seeds s SudokuAction.ERASE = some s ∧
    sudokuReducer seeds s SudokuAction.AUTO_PENCILMARKS = some s ∧
    sudokuReducer seeds s SudokuAction.DESELECT_CELL =
      some { s with play := some { p with selectedIndex := none } } := by
  refine ⟨?_, ?_, ?_, ?_, ?_⟩
  · intro i
    simp [sudokuReducer, hplay, hc]
  · intro v
    cases hsel : p.selectedIndex with
    | none => simp [sudokuReducer, hplay, hsel]
    | some k => simp [sudokuReducer, hplay, hsel, hc]
  · cases hsel : p.selectedIndex with
    | none => simp [sudokuReducer, hplay, hsel]
    | some k => simp [sudokuReducer, hplay, hsel, hc]
  · simp [sudokuReducer, hplay, hc]
  · simp [sudokuReducer, hplay]

/-- **C3** counterexample: entering the last missing digit completes the
board, and a single `UNDO` brings the state back to
`completed = false`. -/
theorem completed_state_left_by_undo :
    stateCompleted completedViaInput = some true ∧
    stateCompleted undoneAfterCompletion = some false := by
  refine ⟨by decide, by decide⟩

theorem completed_blocks_selection_and_input_witness :
    sudokuReducer (0, 0, 0)
      { play := some { board := { cells := [], completed := true, entering := false
                                  enteringError := none }
                       settings := DEFAULT_PLAY_SETTINGS, selectedIndex := none }
        originalPuzzle := "", originalSolution := ""
        source := PlayingSource.LEVEL, levelUuid := none, boardUuid := none
        history := [], appSettings := DEFAULT_APP_SETTINGS
        digitMapping := [], reverseDigitMapping := [] }
      (SudokuAction.SELECT_CELL 0) =
    some { play := some { board := { cells := [], completed := true, entering := false
                                     enteringError := none }
                          settings := DEFAULT_PLAY_SETTINGS, selectedIndex := none }
           originalPuzzle := "", originalSolution := ""
           source := PlayingSource.LEVEL, levelUuid := none, boardUuid := none
           history := [], appSettings := DEFAULT_APP_SETTINGS
           digitMapping := [], reverseDigitMapping := [] } :=
  (completed_blocks_selection_and_input (0, 0, 0) _ _ rfl rfl).1 0

lemma parsePuzzleString_some_of_lengths (puzzle solution : String)
    (hp : puzzle.length = 81) (hs : solution.length = 81) :
    ∃ cells, parsePuzzleString puzzle (some solution) = some cells ∧
      cells.length = 81 := by
  unfold parsePuzzleString
  rw [if_neg (by omega)]
  rw [if_neg (by simp [hs])]
  rw [mapM_option_eq_map _ _ (fun index =>
    ({ index := index
       solution := match solution.data[index]? with
         | some solutionChar => parseDigit solutionChar
         | none => none
       given := parseDigit (puzzle.data.getD index ' ')
       input := none, pencilmarks := none } : SudokuCell)) ?_]
  · exact ⟨_, rfl, by simp⟩
  · intro i hi
    rw [List.mem_range] at hi
    have hlt : i < puzzle.data.length := by
      have he : puzzle.length = puzzle.data.length := rfl
      omega
    rw [List.getElem?_eq_getElem hlt, Option.map_some']
    simp [List.getD_eq_getElem puzzle.data ' ' hlt, List.getElem?_eq_getElem hlt]

lemma scramble9_getD_bound (symmetrical : Bool) (seed : Nat) (y : Nat) (hy : y < 9) :
    (scramble9 symmetrical seed).getD y y < 9 := by
  obtain ⟨t, b0, b1, b2, ht, hb0, hb1, hb2, heq, _⟩ := scramble9_struct symmetrical seed
  rw [heq, assembleBlocks_getD t b0 b1 b2 y y hy]
  exact bandFun_lt t b0 b1 b2 ht hb0 hb1 hb2 y hy

lemma identity_perm_getD_bound (y : Nat) (hy : y < 9) :
    ([0, 1, 2, 3, 4, 5, 6, 7, 8] : List Nat).getD y y < 9 := by
  interval_cases y <;> decide

lemma scrambleBoard_some_of_length (scrambler : ScramblerProtocol)
    (hbound : ∀ symmetrical seed y, y < 9 →
      (scrambler.scramble9 symmetrical seed).getD y y < 9)
    (cells : List SudokuCell) (h81 : cells.length = 81)
    (symmetrical : Bool) (seeds : Nat × Nat × Nat) :
    ∃ res, scrambleBoard scrambler cells symmetrical seeds = some res := by
  obtain ⟨res, hres, _, _⟩ := scrambleBoardWith_spec
    (scrambler.scramble9 symmetrical seeds.1)
    (scrambler.scramble9 symmetrical seeds.2.1)
    (scrambler.scramble9 symmetrical seeds.2.2) cells h81
    (fun y hy => hbound symmetrical seeds.1 y hy)
    (fun x hx => hbound symmetrical seeds.2.1 x hx)
  exact ⟨res, hres⟩

/-- **C9 (amended).**  The reducer never throws on `SELECT_CELL`,
`DESELECT_CELL`, `TOGGLE_PENCIL_MODE`, `SET_PENCIL_MODE`, `UNDO` and
`UPDATE_APP_SETTINGS`, and `LOAD_BOARD` succeeds whenever puzzle and
solution both have length 81; it is not total on arbitrary strings,
see the counterexample. -/
theorem reducer_totality :
    (∀ seeds s i, (sudokuReducer seeds s (SudokuAction.SELECT_CELL i)).isSome = true) ∧
    (∀ seeds s, (sudokuReducer seeds s SudokuAction.DESELECT_CELL).isSome = true) ∧
    (∀ seeds s, (sudokuReducer seeds s SudokuAction.TOGGLE_PENCIL_MODE).isSome = true) ∧
    (∀ seeds s b, (sudokuReducer seeds s (SudokuAction.SET_PENCIL_MODE b)).isSome = true) ∧
    (∀ seeds s, (sudokuReducer seeds s SudokuAction.UNDO).isSome = true) ∧
    (∀ seeds s ps,
      (sudokuReducer seeds s (SudokuAction.UPDATE_APP_SETTINGS ps)).isSome = true) ∧
    (∀ seeds s puzzle solution scramble symmetrical src lu bu,
      puzzle.length = 81 → solution.length = 81 →
      (sudokuReducer seeds s (SudokuAction.LOAD_BOARD puzzle solution scramble
        symmetrical src lu bu)).isSome = true) := by
  refine ⟨?_, ?_, ?_, ?_, ?_, ?_, ?_⟩
  · intro seeds s i
    cases hp : s.play with
    | none => simp [sudokuReducer, hp]
    | some p =>
      by_cases hc : p.board.completed = true <;> simp [sudokuReducer, hp, hc]
  · intro seeds s
    cases hp : s.play with
    | none => simp [sudokuReducer, hp]
    | some p => simp [sudokuReducer, hp]
  · intro seeds s
    cases hp : s.play with
    | none => simp [sudokuReducer, hp]
    | some p => simp [sudokuReducer, hp]
  · intro seeds s b
    cases hp : s.play with
    | none => simp [sudokuReducer, hp]
    | some p => simp [sudokuReducer, hp]
  · intro seeds s
    cases hl : s.history.getLast? with
    | none => simp [sudokuReducer, hl]
    | some q => simp [sudokuReducer, hl]
  · intro seeds s ps
    simp [sudokuReducer]
  · intro seeds s puzzle solution scramble symmetrical src lu bu hp hs
    obtain ⟨cells, hcells, h81⟩ := parsePuzzleString_some_of_lengths puzzle solution hp hs
    cases scramble with
    | false =>
      obtain ⟨res, hres⟩ := scrambleBoard_some_of_length NonScrambler
        (fun _ _ y hy => identity_perm_getD_bound y hy) cells h81 symmetrical seeds
      simp [sudokuReducer, hcells, hres]
    | true =>
      obtain ⟨res, hres⟩ := scrambleBoard_some_of_length Scrambler
        (fun sy sd y hy => scramble9_getD_bound sy sd y hy) cells h81 symmetrical seeds
      simp [sudokuReducer, hcells, hres]

/-- **C9** counterexample: `LOAD_BOARD` with empty puzzle and solution
strings throws (the `parsePuzzleString` length check), contradicting
the claim that the reducer never throws on arbitrary strings. -/
theorem load_board_throws_on_short_strings :
    sudokuReducer (0, 0, 0) initState
      (SudokuAction.LOAD_BOARD "" "" false false PlayingSource.LEVEL none none) =
      none := by
  decide

theorem reducer_totality_witness :
    (sudokuReducer (0, 0, 0) initState (SudokuAction.LOAD_BOARD samplePuzzle
      sampleSolution true true PlayingSource.LEVEL none none)).isSome = true :=
  reducer_totality.2.2.2.2.2.2 (0, 0, 0) initState samplePuzzle sampleSolution
    true true PlayingSource.LEVEL none none (by decide) (by decide)

/-- **C2 (code bug).**  `RESET` does not re-apply the scrambling used at
load time: it re-parses the original strings and, whenever a digit
mapping exists, runs the board through `NonScrambler`, although the
comments in the `RESET` case claim the same scrambling is re-applied.
At seeds `(0, 0, 0)` the reset board therefore differs from the board
produced at load, while history and selection are cleared as
described. -/
theorem reset_does_not_restore_loaded_board :
    stateCells loadedScrambled ≠ none ∧
    stateCells resetAfterScrambled ≠ none ∧
    stateCells resetAfterScrambled ≠ stateCells loadedScrambled ∧
    (resetAfterScrambled.map (fun s => s.history)) = some [] ∧
    (resetAfterScrambled.bind (fun s => s.play.map (fun p => p.selectedIndex))) =
      some none := by
  refine ⟨by decide, by decide, by decide, by decide, by decide⟩

lemma mapM_option_getElem {α β : Type} (l : List α) (f : α → Option β)
    (res : List β) (h : l.mapM f = some res) :
    res.length = l.length ∧
      ∀ (j : Nat) (a : α), l[j]? = some a → f a = res[j]? := by
  induction l generalizing res with
  | nil =>
    rw [List.mapM_nil] at h
    injection h with h
    subst h
    refine ⟨rfl, ?_⟩
    intro j a ha
    simp at ha
  | cons hd tl ih =>
    rw [List.mapM_cons] at h
    cases hf : f hd with
    | none => rw [hf] at h; exact Option.noConfusion h
    | some b =>
      rw [hf] at h
      cases hrest : tl.mapM f with
      | none => rw [hrest] at h; exact Option.noConfusion h
      | some bs =>
        rw [hrest] at h
        have hres : res = b :: bs := by
          have : (some b >>= fun b => some bs >>= fun bs => pure (b :: bs)) =
              some (b :: bs) := rfl
          rw [this] at h
          injection h with h
          exact h.symm
        subst hres
        obtain ⟨hlen, hptw⟩ := ih bs hrest
        refine ⟨by simp [hlen], ?_⟩
        intro j a ha
        cases j with
        | zero =>
          simp at ha
          subst ha
          simp [hf]
        | succ j =>
          simp at ha ⊢
          exact hptw j a ha

lemma parsePuzzleString_cells_shape (puzzle : String) (solution : Option String)
    (cells : List SudokuCell) (h : parsePuzzleString puzzle solution = some cells) :
    ∀ (i : Nat) (c : SudokuCell), cells[i]? = some c →
      c.input = none ∧ c.pencilmarks = none := by
  unfold parsePuzzleString at h
  split_ifs at h with h1 h2
  obtain ⟨hlen, hptw⟩ := mapM_option_getElem _ _ _ h
  intro i c hc
  have hi : i < cells.length := (List.getElem?_eq_some.mp hc).1
  have hir : i < 81 := by
    have hr81 : (List.range 81).length = 81 := by simp
    omega
  have hri : (List.range 81)[i]? = some i := by simp [hir]
  have hfi := hptw i i hri
  rw [hc] at hfi
  cases hch : puzzle.data[i]? with
  | none => rw [hch] at hfi; exact Option.noConfusion hfi
  | some ch =>
    rw [hch, Option.map_some'] at hfi
    injection hfi with hfi
    rw [← hfi]
    exact ⟨rfl, rfl⟩

lemma scrambleBoardWith_input_none (rows columns numbers : List Nat)
    (cells : List SudokuCell) (res : ScrambleResult)
    (hsc : scrambleBoardWith rows columns numbers cells = some res)
    (hinp : ∀ (i : Nat) (c : SudokuCell), cells[i]? = some c → c.input = none) :
    ∀ (i : Nat) (c : SudokuCell), res.cells[i]? = some c → c.input = none := by
  unfold scrambleBoardWith at hsc
  cases hmm : (List.range 81).mapM (fun index =>
      (cells[rows.getD (rowOf index) (rowOf index) * 9 +
        columns.getD (columnOf index) (columnOf index)]?).map (fun existing =>
        ({ index := index
           solution := mapDigit existing.solution numbers
           given := mapDigit existing.given numbers
           input := mapDigit existing.input numbers
           pencilmarks := mapPencilmarks existing.pencilmarks numbers } : SudokuCell))) with
  | none =>
    rw [hmm] at hsc
    exact Option.noConfusion hsc
  | some sc =>
    rw [hmm] at hsc
    injection hsc with hsc
    subst hsc
    obtain ⟨hlen, hptw⟩ := mapM_option_getElem _ _ _ hmm
    intro i c hc
    have hi : i < sc.length := (List.getElem?_eq_some.mp hc).1
    have hir : i < 81 := by
      have : (List.range 81).length = 81 := by simp
      omega
    have hri : (List.range 81)[i]? = some i := by simp [hir]
    have hfi := hptw i i hri
    rw [hc] at hfi
    cases hex : cells[rows.getD (rowOf i) (rowOf i) * 9 +
        columns.getD (columnOf i) (columnOf i)]? with
    | none => rw [hex] at hfi; exact Option.noConfusion hfi
    | some existing =>
      rw [hex, Option.map_some'] at hfi
      injection hfi with hfi
      rw [← hfi]
      show mapDigit existing.input numbers = none
      rw [hinp _ existing hex]
      rfl

lemma cluesMatch_of_set (g : List (Option Nat)) (cells : List SudokuCell)
    (k : Nat) (cell newCell : SudokuCell)
    (hcell : cells[k]? = some cell) (hgiven : newCell.given = cell.given)
    (hinp : cell.given ≠ none → newCell.input = cell.input)
    (hmatch : ∀ (i : Nat) (c : SudokuCell), cells[i]? = some c →
      c.given = g.getD i none ∧ (c.given ≠ none → c.input = none)) :
    ∀ (i : Nat) (c : SudokuCell), (cells.set k newCell)[i]? = some c →
      c.given = g.getD i none ∧ (c.given ≠ none → c.input = none) := by
  intro i c hc
  rw [List.getElem?_set] at hc
  by_cases hk : k = i
  · rw [if_pos hk] at hc
    by_cases hlt : k < cells.length
    · rw [if_pos hlt] at hc
      injection hc with hc
      subst hc
      subst hk
      obtain ⟨hg, hi⟩ := hmatch k cell hcell
      refine ⟨by rw [hgiven, hg], ?_⟩
      intro hne
      rw [hgiven] at hne
      rw [hinp hne]
      exact hi hne
    · rw [if_neg hlt] at hc
      exact Option.noConfusion hc
  · rw [if_neg hk] at hc
    exact hmatch i c hc

lemma cluesMatch_of_enum_mapM (g : List (Option Nat))
    (cells newCells : List SudokuCell) (f : Nat × SudokuCell → Option SudokuCell)
    (hmm : cells.enum.mapM f = some newCells)
    (hf : ∀ (j : Nat) (c c' : SudokuCell), f (j, c) = some c' →
      c'.given = c.given ∧ (c.given ≠ none → c'.input = c.input))
    (hmatch : ∀ (i : Nat) (c : SudokuCell), cells[i]? = some c →
      c.given = g.getD i none ∧ (c.given ≠ none → c.input = none)) :
    ∀ (i : Nat) (c' : SudokuCell), newCells[i]? = some c' →
      c'.given = g.getD i none ∧ (c'.given ≠ none → c'.input = none) := by
  intro i c' hc'
  obtain ⟨hlen, hptw⟩ := mapM_option_getElem _ _ _ hmm
  have hi : i < newCells.length := (List.getElem?_eq_some.mp hc').1
  have hcl : i < cells.length := by
    have he : cells.enum.length = cells.length := List.enum_length
    omega
  have henum : cells.enum[i]? = some (i, cells[i]) := by
    rw [List.getElem?_enum, List.getElem?_eq_getElem hcl, Option.map_some']
  have hfi := hptw i (i, cells[i]) henum
  rw [hc'] at hfi
  obtain ⟨hg', hi'⟩ := hf i (cells[i]) c' hfi
  obtain ⟨hg, hinp⟩ := hmatch i (cells[i]) (List.getElem?_eq_getElem hcl)
  refine ⟨by rw [hg', hg], ?_⟩
  intro hne
  rw [hg'] at hne
  rw [hi' hne]
  exact hinp hne

lemma autoPencilmarksCells_getElem_value (cells : List SudokuCell) (i : Nat)
    (c : SudokuCell) (w : Nat) (hc : cells[i]? = some c)
    (hv : cellValue c = some w) :
    (autoPencilmarksCells cells)[i]? = some { c with pencilmarks := some [] } := by
  simp only [autoPencilmarksCells, List.getElem?_map, List.getElem?_enum, hc,
    Option.map_some']
  rw [hv]

lemma autoPencilmarksCells_getElem_empty (cells : List SudokuCell) (i : Nat)
    (c : SudokuCell) (hc : cells[i]? = some c) (hv : cellValue c = none) :
    (autoPencilmarksCells cells)[i]? =
      some { c with pencilmarks := some (autoCandidates cells i) } := by
  simp only [autoPencilmarksCells, List.getElem?_map, List.getElem?_enum, hc,
    Option.map_some']
  rw [hv]
  rfl

lemma stateCluesMatch_push (g : List (Option Nat)) (s s' : SudokuState)
    (play newPlay : SudokuPlay)
    (hplay : s.play = some play) (hs : stateCluesMatch g s)
    (hhist : s'.history = s.history ++ [play]) (hp : s'.play = some newPlay)
    (hnew : playCluesMatch g newPlay) : stateCluesMatch g s' := by
  obtain ⟨h1, h2⟩ := hs
  refine ⟨?_, ?_⟩
  · intro p hp2
    rw [hp] at hp2
    injection hp2 with hp2
    subst hp2
    exact hnew
  · intro p hpmem
    rw [hhist, List.mem_append, List.mem_singleton] at hpmem
    rcases hpmem with h | h
    · exact h2 p h
    · subst h
      exact h1 _ hplay

lemma reducer_gameplay_cluesMatch (seeds : Nat × Nat × Nat) (g : List (Option Nat))
    (s s' : SudokuState) (a : SudokuAction) (ha : inPlayAction a)
    (hs : stateCluesMatch g s) (hstep : sudokuReducer seeds s a = some s') :
    stateCluesMatch g s' := by
  cases a with
  | LOAD_BOARD p q r t u w x => exact ha.elim
  | RESET => exact ha.elim
  | SELECT_CELL i =>
    cases hplay : s.play with
    | none =>
      simp [sudokuReducer, hplay] at hstep
      exact hstep ▸ hs
    | some play =>
      by_cases hcomp : play.board.completed = true
      · simp [sudokuReducer, hplay, hcomp] at hstep
        exact hstep ▸ hs
      · simp [sudokuReducer, hplay, hcomp] at hstep
        subst hstep
        refine ⟨?_, hs.2⟩
        intro p hp
        simp only [Option.some.injEq] at hp
        subst hp
        exact hs.1 play hplay
  | DESELECT_CELL =>
    cases hplay : s.play with
    | none =>
      simp [sudokuReducer, hplay] at hstep
      exact hstep ▸ hs
    | some play =>
      simp [sudokuReducer, hplay] at hstep
      subst hstep
      refine ⟨?_, hs.2⟩
      intro p hp
      simp only [Option.some.injEq] at hp
      subst hp
      exact hs.1 play hplay
  | TOGGLE_PENCIL_MODE =>
    cases hplay : s.play with
    | none =>
      simp [sudokuReducer, hplay] at hstep
      exact hstep ▸ hs
    | some play =>
      simp [sudokuReducer, hplay] at hstep
      subst hstep
      refine ⟨?_, hs.2⟩
      intro p hp
      simp only [Option.some.injEq] at hp
      subst hp
      exact hs.1 play hplay
  | SET_PENCIL_MODE b =>
    cases hplay : s.play with
    | none =>
      simp [sudokuReducer, hplay] at hstep
      exact hstep ▸ hs
    | some play =>
      simp [sudokuReducer, hplay] at hstep
      subst hstep
      refine ⟨?_, hs.2⟩
      intro p hp
      simp only [Option.some.injEq] at hp
      subst hp
      exact hs.1 play hplay
  | UPDATE_APP_SETTINGS ps =>
    simp [sudokuReducer] at hstep
    subst hstep
    exact ⟨hs.1, hs.2⟩
  | AUTO_PENCILMARKS =>
    cases hplay : s.play with
    | none =>
      simp [sudokuReducer, hplay] at hstep
      exact hstep ▸ hs
    | some play =>
      by_cases hcomp : play.board.completed = true
      · simp [sudokuReducer, hplay, hcomp] at hstep
        exact hstep ▸ hs
      · by_cases hlen : play.board.cells.length > 81
        · simp [sudokuReducer, hplay, hcomp, hlen] at hstep
        · simp [sudokuReducer, hplay, hcomp, hlen] at hstep
          subst hstep
          refine stateCluesMatch_push g s _ play _ hplay hs rfl rfl ?_
          intro i c hc
          have hpcm := hs.1 play hplay
          cases hcell : play.board.cells[i]? with
          | none =>
            have hnone : (autoPencilmarksCells play.board.cells)[i]? = none := by
              simp [autoPencilmarksCells, List.getElem?_enum, hcell]
            rw [hnone] at hc
            exact Option.noConfusion hc
          | some c0 =>
            cases hv : cellValue c0 with
            | some w =>
              rw [autoPencilmarksCells_getElem_value play.board.cells i c0 w
                hcell hv] at hc
              injection hc with hc
              subst hc
              exact hpcm i c0 hcell
            | none =>
              rw [autoPencilmarksCells_getElem_empty play.board.cells i c0
                hcell hv] at hc
              injection hc with hc
              subst hc
              exact hpcm i c0 hcell
  | INPUT v =>
    cases hplay : s.play with
    | none =>
      simp [sudokuReducer, hplay] at hstep
      exact hstep ▸ hs
    | some play =>
      have hpcm : playCluesMatch g play := hs.1 play hplay
      cases hsel : play.selectedIndex with
      | none =>
        simp [sudokuReducer, hplay, hsel] at hstep
        exact hstep ▸ hs
      | some sel =>
        by_cases hcomp : play.board.completed = true
        · simp [sudokuReducer, hplay, hsel, hcomp] at hstep
          exact hstep ▸ hs
        · cases hcell : play.board.cells[sel]? with
          | none =>
            simp [sudokuReducer, hplay, hsel, hcomp, hcell] at hstep
            exact hstep ▸ hs
          | some cell =>
            by_cases hg : cell.given = none
            · by_cases hpm : play.settings.pencilmarking = true
              · -- pencil mode
                cases v with
                | none =>
                  simp [sudokuReducer, hplay, hsel, hcomp, hcell, hg, hpm] at hstep
                  exact hstep ▸ hs
                | some w =>
                  cases hcpm : cell.pencilmarks with
                  | none =>
                    simp [sudokuReducer, hplay, hsel, hcomp, hcell, hg, hpm, hcpm] at hstep
                  | some pm =>
                    simp [sudokuReducer, hplay, hsel, hcomp, hcell, hg, hpm, hcpm] at hstep
                    subst hstep
                    refine stateCluesMatch_push g s _ play _ hplay hs rfl rfl ?_
                    intro i c hc
                    refine cluesMatch_of_set g play.board.cells sel cell _ hcell ?_
                      (fun hne => absurd hg hne) hpcm i c hc
                    exact hg.symm
              · -- normal mode: mapM over all cells
                simp [sudokuReducer, hplay, hsel, hcomp, hcell, hg, hpm] at hstep
                split at hstep
                · exact Option.noConfusion hstep
                · rename_i newCells hmm
                  simp only [Option.some.injEq] at hstep
                  subst hstep
                  refine stateCluesMatch_push g s _ play _ hplay hs rfl rfl ?_
                  intro i c hc
                  refine cluesMatch_of_enum_mapM g play.board.cells newCells _ hmm
                    ?_ hpcm i c hc
                  intro j c0 c' hfc
                  dsimp only at hfc
                  by_cases hg0 : c0.given = none
                  · rw [if_pos hg0] at hfc
                    by_cases hj : j = sel
                    · rw [if_pos hj] at hfc
                      injection hfc with hfc
                      subst hfc
                      exact ⟨rfl, fun hne => absurd hg0 hne⟩
                    · rw [if_neg hj] at hfc
                      split at hfc
                      · by_cases hrel : rowOf j = rowOf sel ∨ columnOf j = columnOf sel ∨
                            blockOf j = blockOf sel
                        · rw [if_pos hrel] at hfc
                          cases hcpm0 : c0.pencilmarks with
                          | none =>
                            rw [hcpm0] at hfc
                            exact Option.noConfusion hfc
                          | some pm0 =>
                            rw [hcpm0] at hfc
                            injection hfc with hfc
                            subst hfc
                            exact ⟨rfl, fun _ => rfl⟩
                        · rw [if_neg hrel] at hfc
                          injection hfc with hfc
                          subst hfc
                          exact ⟨rfl, fun _ => rfl⟩
                      · injection hfc with hfc
                        subst hfc
                        exact ⟨rfl, fun _ => rfl⟩
                  · rw [if_neg hg0] at hfc
                    injection hfc with hfc
                    subst hfc
                    exact ⟨rfl, fun _ => rfl⟩
            · simp [sudokuReducer, hplay, hsel, hcomp, hcell, hg] at hstep
              exact hstep ▸ hs
  | ERASE =>
    cases hplay : s.play with
    | none =>
      simp [sudokuReducer, hplay] at hstep
      exact hstep ▸ hs
    | some play =>
      have hpcm : playCluesMatch g play := hs.1 play hplay
      cases hsel : play.selectedIndex with
      | none =>
        simp [sudokuReducer, hplay, hsel] at hstep
        exact hstep ▸ hs
      | some sel =>
        by_cases hcomp : play.board.completed = true
        · simp [sudokuReducer, hplay, hsel, hcomp] at hstep
          exact hstep ▸ hs
        · cases hcell : play.board.cells[sel]? with
          | none =>
            simp [sudokuReducer, hplay, hsel, hcomp, hcell] at hstep
            exact hstep ▸ hs
          | some cell =>
            by_cases hg : cell.given = none
            · by_cases hpm : play.settings.pencilmarking = true
              · cases hcpm : cell.pencilmarks with
                | none =>
                  simp [sudokuReducer, hplay, hsel, hcomp, hcell, hg, hpm, hcpm] at hstep
                | some pml =>
                  by_cases hlen : pml.length = 0
                  · simp [sudokuReducer, hplay, hsel, hcomp, hcell, hg, hpm, hcpm,
                      hlen] at hstep
                    exact hstep ▸ hs
                  · simp [sudokuReducer, hplay, hsel, hcomp, hcell, hg, hpm, hcpm,
                      hlen] at hstep
                    subst hstep
                    refine stateCluesMatch_push g s _ play _ hplay hs rfl rfl ?_
                    intro i c hc
                    exact cluesMatch_of_set g play.board.cells sel cell
                      { cell with given := none, pencilmarks := some [] } hcell hg.symm
                      (fun _ => rfl) hpcm i c hc
              · by_cases hio : cell.input = none
                · simp [sudokuReducer, hplay, hsel, hcomp, hcell, hg, hpm, hio] at hstep
                  exact hstep ▸ hs
                · simp [sudokuReducer, hplay, hsel, hcomp, hcell, hg, hpm, hio] at hstep
                  subst hstep
                  refine stateCluesMatch_push g s _ play _ hplay hs rfl rfl ?_
                  intro i c hc
                  refine cluesMatch_of_set g play.board.cells sel cell _ hcell ?_
                    (fun hne => absurd hg hne) hpcm i c hc
                  exact hg.symm
            · simp [sudokuReducer, hplay, hsel, hcomp, hcell, hg] at hstep
              exact hstep ▸ hs
  | UNDO =>
    cases hlast : s.history.getLast? with
    | none =>
      simp [sudokuReducer, hlast] at hstep
      exact hstep ▸ hs
    | some prev =>
      simp [sudokuReducer, hlast] at hstep
      subst hstep
      obtain ⟨h1, h2⟩ := hs
      refine ⟨?_, ?_⟩
      · intro p hp
        simp only [Option.some.injEq] at hp
        subst hp
        exact h2 prev (List.mem_of_mem_getLast? hlast)
      · intro p hp
        exact h2 p (List.mem_of_mem_dropLast hp)

lemma applyActions_cluesMatch (seeds : Nat × Nat × Nat) (g : List (Option Nat)) :
    ∀ (acts : List SudokuAction) (s s' : SudokuState),
      (∀ a ∈ acts, inPlayAction a) → stateCluesMatch g s →
      applyActions seeds s acts = some s' → stateCluesMatch g s' := by
  intro acts
  induction acts with
  | nil =>
    intro s s' _ hs h
    unfold applyActions at h
    rw [List.foldlM_nil] at h
    injection h with h
    exact h ▸ hs
  | cons a as ih =>
    intro s s' hall hs h
    unfold applyActions at h
    rw [List.foldlM_cons] at h
    cases hstep : sudokuReducer seeds s a with
    | none =>
      rw [hstep] at h
      exact Option.noConfusion h
    | some s1 =>
      rw [hstep] at h
      have hs1 := reducer_gameplay_cluesMatch seeds g s s1 a
        (hall a (List.mem_cons_self a as)) hs hstep
      exact ih s1 s' (fun b hb => hall b (List.mem_cons_of_mem a hb)) hs1 h

lemma load_cluesMatch (seeds : Nat × Nat × Nat) (s0 s1 : SudokuState)
    (puzzle solution : String) (scramble symmetrical : Bool)
    (source : PlayingSource) (lu bu : Option String)
    (hload : sudokuReducer seeds s0
      (SudokuAction.LOAD_BOARD puzzle solution scramble symmetrical source lu bu) =
      some s1)
    (p1 : SudokuPlay) (hp1 : s1.play = some p1) :
    stateCluesMatch (p1.board.cells.map SudokuCell.given) s1 := by
  simp only [sudokuReducer] at hload
  split at hload
  · exact Option.noConfusion hload
  · rename_i cells hparse
    split at hload
    · exact Option.noConfusion hload
    · rename_i scrambleResult hscr
      injection hload with hload
      subst hload
      injection hp1 with hp1
      subst hp1
      constructor
      · intro p hp
        injection hp with hp
        subst hp
        intro i c hc
        have hi : i < scrambleResult.cells.length := (List.getElem?_eq_some.mp hc).1
        refine ⟨?_, ?_⟩
        · rw [List.getD_eq_getElem?_getD, List.getElem?_map]
          show c.given = ((scrambleResult.cells[i]?).map SudokuCell.given).getD none
          rw [hc]
          rfl
        · intro _
          exact scrambleBoardWith_input_none _ _ _ cells scrambleResult hscr
            (fun j cj hcj =>
              (parsePuzzleString_cells_shape puzzle (some solution) cells hparse j cj hcj).1)
            i c hc
      · intro p hp
        simp [createInitialState] at hp

/-- **C8.**  Clue immutability: load a board, then apply any sequence of
in-play actions that runs without throwing — selections, pencil-mode
switches, `AUTO_PENCILMARKS`, and in particular any `INPUT`, `ERASE` and
`UNDO` moves made from any mid-game state those set up (every state
reachable from the load without replacing the board is of this form).
Every cell of the resulting current play (and of every history snapshot)
still carries the `given` value the load assigned to its index, and
every cell whose `given` is non-null still has a null `input`: gameplay
never mutates a clue cell, not even `INPUT` aimed directly at a selected
clue cell. -/
theorem clue_immutability (seeds seeds' : Nat × Nat × Nat) (s0 s1 s2 : SudokuState)
    (puzzle solution : String) (scramble symmetrical : Bool)
    (source : PlayingSource) (lu bu : Option String) (p1 : SudokuPlay)
    (acts : List SudokuAction)
    (hload : sudokuReducer seeds s0
      (SudokuAction.LOAD_BOARD puzzle solution scramble symmetrical source lu bu) =
      some s1)
    (hp1 : s1.play = some p1)
    (hacts : ∀ a ∈ acts, inPlayAction a)
    (happ : applyActions seeds' s1 acts = some s2) :
    stateCluesMatch (p1.board.cells.map SudokuCell.given) s2 :=
  applyActions_cluesMatch seeds' _ acts s1 s2 hacts
    (load_cluesMatch seeds s0 s1 puzzle solution scramble symmetrical source lu bu
      hload p1 hp1) happ

theorem clue_immutability_witness :
    stateCluesMatch (loadedPlainPlay.board.cells.map SudokuCell.given)
      afterGameplayDemo :=
  clue_immutability (0, 0, 0) (0, 0, 0) initState loadedPlainState afterGameplayDemo
    samplePuzzle sampleSolution false false PlayingSource.LEVEL none none
    loadedPlainPlay gameplayDemo (by decide) (by decide)
    (fun a ha => by
      simp only [gameplayDemo, List.mem_cons, List.not_mem_nil, or_false] at ha
      rcases ha with rfl | rfl | rfl | rfl | rfl | rfl | rfl | rfl <;> trivial)
    (by decide)

lemma autoCandidates_sorted (cells : List SudokuCell) (i : Nat) :
    List.Pairwise (· < ·) (autoCandidates cells i) :=
  (((List.pairwise_lt_range 9).map (fun k => k + 1)
    (fun _ _ h => Nat.succ_lt_succ h)).filter _)

lemma autoCandidates_mem (cells : List SudokuCell) (i d : Nat) :
    d ∈ autoCandidates cells i ↔
      (1 ≤ d ∧ d ≤ 9 ∧ ∀ (j : Nat) (cj : SudokuCell), cells[j]? = some cj →
        (rowOf j = rowOf i ∨ columnOf j = columnOf i ∨ blockOf j = blockOf i) →
        cellValue cj ≠ some d) := by
  unfold autoCandidates
  rw [List.mem_filter]
  constructor
  · rintro ⟨hmem, hp⟩
    simp only [List.mem_map, List.mem_range] at hmem
    obtain ⟨k, hk, rfl⟩ := hmem
    refine ⟨by omega, by omega, ?_⟩
    intro j cj hcj hrel hval
    simp only [Bool.and_eq_true, Bool.not_eq_true', List.any_eq_false,
      decide_eq_true_eq] at hp
    obtain ⟨⟨hr, hcol⟩, hb⟩ := hp
    have hjmem : (j, cj) ∈ cells.enum := List.mem_enum_iff_getElem?.mpr hcj
    rcases hrel with h | h | h
    · exact hr (j, cj) hjmem ⟨h, hval⟩
    · exact hcol (j, cj) hjmem ⟨h, hval⟩
    · exact hb (j, cj) hjmem ⟨h, hval⟩
  · rintro ⟨h1, h9, hall⟩
    refine ⟨List.mem_map.mpr ⟨d - 1, List.mem_range.mpr (by omega), by omega⟩, ?_⟩
    simp only [Bool.and_eq_true, Bool.not_eq_true', List.any_eq_false,
      decide_eq_true_eq]
    refine ⟨⟨?_, ?_⟩, ?_⟩ <;>
      · rintro ⟨j, cj⟩ hjmem ⟨hu, hval⟩
        exact hall j cj (List.mem_enum_iff_getElem?.mp hjmem) (by tauto) hval

/-- **C7.**  After `AUTO_PENCILMARKS` on a non-completed board of at most
81 cells, every cell with no `given`-or-`input` value receives as
pencilmarks exactly the digits 1–9 that occur as a value nowhere in its
row, column or block (the intersection of the three candidate sets),
sorted strictly ascending; every valued cell gets its pencilmarks
cleared to the empty list; and `given`, `input` and `solution` are
unchanged everywhere. -/
theorem auto_pencilmarks_characterization (seeds : Nat × Nat × Nat)
    (s s' : SudokuState) (play : SudokuPlay)
    (hplay : s.play = some play) (hcomp : play.board.completed = false)
    (hlen : play.board.cells.length ≤ 81)
    (hstep : sudokuReducer seeds s SudokuAction.AUTO_PENCILMARKS = some s') :
    ∃ play', s'.play = some play' ∧
      play'.board.cells.length = play.board.cells.length ∧
      ∀ (i : Nat) (c : SudokuCell), play.board.cells[i]? = some c →
        ∃ c', play'.board.cells[i]? = some c' ∧
          c'.given = c.given ∧ c'.input = c.input ∧ c'.solution = c.solution ∧
          (cellValue c ≠ none → c'.pencilmarks = some []) ∧
          (cellValue c = none → ∃ pm, c'.pencilmarks = some pm ∧
            List.Pairwise (· < ·) pm ∧
            ∀ d, d ∈ pm ↔ (1 ≤ d ∧ d ≤ 9 ∧
              ∀ (j : Nat) (cj : SudokuCell), play.board.cells[j]? = some cj →
                (rowOf j = rowOf i ∨ columnOf j = columnOf i ∨ blockOf j = blockOf i) →
                cellValue cj ≠ some d)) := by
  have hlen' : ¬ play.board.cells.length > 81 := by omega
  simp only [sudokuReducer, hplay, hcomp, Bool.false_eq_true, if_false, hlen',
    ite_false, Option.some.injEq] at hstep
  subst hstep
  refine ⟨_, rfl, ?_, ?_⟩
  · simp [autoPencilmarksCells]
  · intro i c hc
    cases hv : cellValue c with
    | some w =>
      refine ⟨{ c with pencilmarks := some [] },
        autoPencilmarksCells_getElem_value play.board.cells i c w hc hv,
        rfl, rfl, rfl, fun _ => rfl, fun h => absurd h (by simp)⟩
    | none =>
      refine ⟨{ c with pencilmarks := some (autoCandidates play.board.cells i) },
        autoPencilmarksCells_getElem_empty play.board.cells i c hc hv,
        rfl, rfl, rfl, fun hne => absurd rfl hne, fun _ => ?_⟩
      exact ⟨autoCandidates play.board.cells i, rfl,
        autoCandidates_sorted play.board.cells i,
        fun d => autoCandidates_mem play.board.cells i d⟩

theorem auto_pencilmarks_characterization_witness :
    ∃ play', afterAutoPencil.play = some play' ∧
      play'.board.cells.length = tinyPlay.board.cells.length ∧
      ∀ (i : Nat) (c : SudokuCell), tinyPlay.board.cells[i]? = some c →
        ∃ c', play'.board.cells[i]? = some c' ∧
          c'.given = c.given ∧ c'.input = c.input ∧ c'.solution = c.solution ∧
          (cellValue c ≠ none → c'.pencilmarks = some []) ∧
          (cellValue c = none → ∃ pm, c'.pencilmarks = some pm ∧
            List.Pairwise (· < ·) pm ∧
            ∀ d, d ∈ pm ↔ (1 ≤ d ∧ d ≤ 9 ∧
              ∀ (j : Nat) (cj : SudokuCell), tinyPlay.board.cells[j]? = some cj →
                (rowOf j = rowOf i ∨ columnOf j = columnOf i ∨ blockOf j = blockOf i) →
                cellValue cj ≠ some d)) :=
  auto_pencilmarks_characterization (0, 0, 0) tinyState afterAutoPencil tinyPlay
    rfl rfl (by decide) (by decide)
